import Mathlib

/-!
# The `analyze` command of fossa-cli: orchestration loop and command entry point

Shallow embedding of `cmd/fossa/cmd/analyze/analyze.go` (`Run`, `Do`,
`uploadAnalysis`).

* Go values are plain Lean data.
* Everything outside the file (analyzers, the FOSSA API client, configuration,
  display, logging) is a collaborator.  Collaborators that compute something are
  fields of `Env`: total functions of an explicit world state `σ`, returning the
  Go result pair `(value, err)` and the next world.  Collaborators are assumed to
  return (they do not themselves exit or hang).
* A Go function body is a `Proc σ α`: from a world it produces an `Outcome`
  (the function returned a value, or the process was terminated by
  `log.Fatalf`/`log.Fatal`, which in apex/log logs and then calls `os.Exit(1)`),
  the list of events it produced in chronological order, and the final world.
* Events record the display notifications, the log calls, standard output, and
  each collaborator call together with what it returned.
-/

namespace Fossa

/-! ## Data model -/

/-- Modelled from the spec: `pkg.Type`, the ecosystem type tag of the `pkg` package
(not in this file).  Only the sentinel `Raw` is distinguished by `analyze.go`; every
other ecosystem is a numbered tag. -/
inductive PkgType where
  | Raw
  | Ecosystem (tag : Nat)
  deriving DecidableEq, Repr

/-- Modelled from the spec: `pkg.ID`, the composite package identifier (ecosystem
type tag, name, revision); two identifiers are equal iff all three fields match. -/
structure ID where
  Type_ : PkgType
  Name : String
  Revision : String
  deriving DecidableEq, Repr

/-- Modelled from the spec: `pkg.Import`, an edge to a resolved identifier, optionally
carrying the original unresolved reference (`Target`, empty when omitted). -/
structure Import where
  Target : String := ""
  Resolved : ID
  deriving DecidableEq, Repr

/-- Modelled from the spec: `pkg.Package`, a graph node: its identifier plus its own
direct dependencies (empty when omitted). -/
structure Package where
  ID : ID
  Imports : List Import := []
  deriving DecidableEq, Repr

/-- Go `map[pkg.ID]pkg.Package`, as an association list with at most one entry per key
(`nil` and the empty map are both `[]`). -/
abbrev PkgMap := List (ID × Package)

/-- Go `make(map[pkg.ID]pkg.Package)`. -/
def PkgMap.make : PkgMap := []

/-- Go `m[k] = v`. -/
def PkgMap.set (m : PkgMap) (k : ID) (v : Package) : PkgMap :=
  (k, v) :: m.filter (fun kv => decide (kv.1 ≠ k))

/-- Modelled from the spec: the result of `Analyze`: direct imports and the transitive
identifier-to-package graph. -/
structure Deps where
  Direct : List Import
  Transitive : PkgMap
  deriving DecidableEq, Repr

/-- Modelled from the spec: `module.Module`: name, ecosystem type tag, build target, and
the attached analysis results (direct imports, transitive dependency map). -/
structure Module where
  Name : String
  Type_ : PkgType
  BuildTarget : String
  Imports : List Import := []
  Deps : PkgMap := []
  deriving DecidableEq, Repr

/-- Modelled from the spec: `fossa.Locator`: fetcher tag, project identifier, revision. -/
structure Locator where
  Fetcher : String
  Project : String
  Revision : String
  deriving DecidableEq, Repr

/-- Modelled from the spec: `fossa.SourceUnit`, the normalized record of one module: its
locator plus its flattened dependency data.  `analyze.go` only passes it along. -/
structure SourceUnit where
  Locator : Locator
  Imports : List ID
  Dependencies : List Package
  deriving DecidableEq, Repr

/-- The `fossa.UploadOptions` literal built by `uploadAnalysis`. -/
structure UploadOptions where
  Branch : String
  ProjectURL : String
  JIRAProjectKey : String
  Link : String
  Team : String
  deriving DecidableEq, Repr

/-- The fields of `errors.Error` that `Run` sets (`Type` is always `errors.UserInput`
where `Run` builds one, recorded as `UserInput := true`). -/
structure ErrorsError where
  Code : String
  UserInput : Bool
  Message : String
  Troubleshooting : String
  deriving DecidableEq, Repr

/-- Go `error` values that `analyze.go` can tell apart: the sentinel
`fossa.ErrMissingAPIKey`, a `*errors.Error` built by `Run`, or any other error (with its
`Error()` text). -/
inductive GoError where
  | ErrMissingAPIKey
  | errorsError (e : ErrorsError)
  | other (text : String)
  deriving DecidableEq, Repr

/-- The part of `*cli.Context` that `Run` reads: `ctx.Bool(name)` and `ctx.String(name)`. -/
structure Context where
  GetBool : String → Bool
  GetString : String → String

/-! ## Events -/

/-- What a run does that can be observed from outside, in the order it happens.  Log
events keep the format string and the error argument apart. -/
inductive Event where
  | InProgress (text : String)
  | ClearProgress
  | Debugf (format : String) (analyzed : List Module)
  | Warnf (format : String) (err : Option GoError)
  | Fatalf (format : String) (err : Option GoError)
  | Println (text : String)
  | SetContext (err : Option GoError)
  | SetAPIKey (key : String) (err : Option GoError)
  | Modules (modules : List Module) (err : Option GoError)
  | UploadTarball (target : String) (locator : Locator) (err : Option GoError)
  | New (m : Module) (err : Option GoError)
  | IsBuilt (built : Bool) (err : Option GoError)
  | Analyze (deps : Deps) (err : Option GoError)
  | Normalize (analyzed : List Module) (normalized : List SourceUnit) (err : Option GoError)
  | TemplateFile (tmplFile : String) (output : String) (err : Option GoError)
  | JSON (output : String) (err : Option GoError)
  | Upload (title : String) (locator : Locator) (options : UploadOptions)
      (normalized : List SourceUnit) (result : Locator) (err : Option GoError)
  deriving DecidableEq, Repr

/-! ## Processes -/

/-- How a Go function body ends: it returns a value, or the process is terminated
(`os.Exit(1)` inside `log.Fatalf`/`log.Fatal`; deferred calls do not run). -/
inductive Outcome (α : Type) where
  | returned (v : α)
  | exited
  deriving DecidableEq, Repr

/-- A Go function body over world states `σ`. -/
def Proc (σ α : Type) : Type := σ → Outcome α × List Event × σ

/-- `return v`. -/
def Proc.ret {σ α : Type} (v : α) : Proc σ α := fun w => (Outcome.returned v, [], w)

/-- Sequencing: the rest does not run once the process has exited. -/
def Proc.seq {σ α β : Type} (x : Proc σ α) (f : α → Proc σ β) : Proc σ β := fun w =>
  match x w with
  | (Outcome.returned v, evs, w1) =>
    match f v w1 with
    | (o, evs2, w2) => (o, evs ++ evs2, w2)
  | (Outcome.exited, evs, w1) => (Outcome.exited, evs, w1)

instance {σ : Type} : Monad (Proc σ) where
  pure := Proc.ret
  bind := Proc.seq

/-- Produce one event. -/
def emit {σ : Type} (e : Event) : Proc σ Unit := fun w => (Outcome.returned (), [e], w)

/-- Terminate the process. -/
def os.Exit {σ α : Type} : Proc σ α := fun w => (Outcome.exited, [], w)

/-- Go `defer d` at the top of a function with body `body`: `d` runs after the body
returns, before the function hands back its results; it does not run when the process
exits inside the body. -/
def withDefer {σ α : Type} (d : Proc σ Unit) (body : Proc σ α) : Proc σ α :=
  Proc.seq body (fun v => Proc.seq d (fun _ => Proc.ret v))

/-! ## Collaborators -/

/-- An analyzer bound to a module, as far as `Do` uses it. -/
structure Analyzer (σ : Type) where
  IsBuilt : σ → (Bool × Option GoError) × σ
  Analyze : σ → (Deps × Option GoError) × σ

/-- The collaborators of `analyze.go`.  `Template` is the constant `flags.Template`;
the `config` getters read the world. -/
structure Env (σ : Type) where
  New : Module → σ → (Analyzer σ × Option GoError) × σ
  UploadTarball : String → σ → (Locator × Option GoError) × σ
  SetContext : Context → σ → Option GoError × σ
  SetAPIKey : String → σ → Option GoError × σ
  Modules : σ → (List Module × Option GoError) × σ
  Normalize : List Module → σ → (List SourceUnit × Option GoError) × σ
  TemplateFile : String → List SourceUnit → σ → (String × Option GoError) × σ
  JSON : List SourceUnit → σ → (String × Option GoError) × σ
  Upload : String → Locator → UploadOptions → List SourceUnit → σ →
    (Locator × Option GoError) × σ
  ReportURL : Locator → σ → String
  APIKey : σ → String
  Title : σ → String
  Fetcher : σ → String
  Project : σ → String
  Revision : σ → String
  Branch : σ → String
  ProjectURL : σ → String
  JIRAProjectKey : σ → String
  Link : σ → String
  Team : σ → String
  Template : String
  WrapString : String → Nat → String
  HiGreenString : String → String
  HiBlueString : String → String

variable {σ : Type}

/-- Read the world without changing it. -/
def readWorld {α : Type} (f : σ → α) : Proc σ α := fun w => (Outcome.returned (f w), [], w)

/-- `display.InProgress(text)`. -/
def display.InProgress (text : String) : Proc σ Unit := emit (Event.InProgress text)

/-- `display.ClearProgress()`. -/
def display.ClearProgress : Proc σ Unit := emit Event.ClearProgress

/-- `log.Debugf(format, analyzed)`. -/
def log.Debugf (format : String) (analyzed : List Module) : Proc σ Unit :=
  emit (Event.Debugf format analyzed)

/-- `log.Warnf(format, err.Error())` (or without argument). -/
def log.Warnf (format : String) (err : Option GoError) : Proc σ Unit :=
  emit (Event.Warnf format err)

/-- `log.Fatalf(format, err.Error())` and `log.Fatal(msg)`: log, then `os.Exit(1)`. -/
def log.Fatalf {α : Type} (format : String) (err : Option GoError) : Proc σ α :=
  Proc.seq (emit (Event.Fatalf format err)) (fun _ => os.Exit)

/-- `fmt.Println(text)`. -/
def fmt.Println (text : String) : Proc σ Unit := emit (Event.Println text)

/-- `fossa.UploadTarball(target)`. -/
def fossa.UploadTarball (env : Env σ) (target : String) :
    Proc σ (Locator × Option GoError) := fun w =>
  match env.UploadTarball target w with
  | ((locator, err), w1) =>
    (Outcome.returned (locator, err), [Event.UploadTarball target locator err], w1)

/-- `analyzers.New(m)`. -/
def analyzers.New (env : Env σ) (m : Module) : Proc σ (Analyzer σ × Option GoError) :=
  fun w =>
  match env.New m w with
  | ((analyzer, err), w1) => (Outcome.returned (analyzer, err), [Event.New m err], w1)

/-- `analyzer.IsBuilt()`. -/
def analyzers.IsBuilt (analyzer : Analyzer σ) : Proc σ (Bool × Option GoError) := fun w =>
  match analyzer.IsBuilt w with
  | ((built, err), w1) => (Outcome.returned (built, err), [Event.IsBuilt built err], w1)

/-- `analyzer.Analyze()`. -/
def analyzers.Analyze (analyzer : Analyzer σ) : Proc σ (Deps × Option GoError) := fun w =>
  match analyzer.Analyze w with
  | ((deps, err), w1) => (Outcome.returned (deps, err), [Event.Analyze deps err], w1)

/-- `setup.SetContext(ctx)`. -/
def setup.SetContext (env : Env σ) (ctx : Context) : Proc σ (Option GoError) := fun w =>
  match env.SetContext ctx w with
  | (err, w1) => (Outcome.returned err, [Event.SetContext err], w1)

/-- `fossa.SetAPIKey(key)`. -/
def fossa.SetAPIKey (env : Env σ) (key : String) : Proc σ (Option GoError) := fun w =>
  match env.SetAPIKey key w with
  | (err, w1) => (Outcome.returned err, [Event.SetAPIKey key err], w1)

/-- `config.Modules()`. -/
def config.Modules (env : Env σ) : Proc σ (List Module × Option GoError) := fun w =>
  match env.Modules w with
  | ((modules, err), w1) => (Outcome.returned (modules, err), [Event.Modules modules err], w1)

/-- `fossa.Normalize(analyzed)`. -/
def fossa.Normalize (env : Env σ) (analyzed : List Module) :
    Proc σ (List SourceUnit × Option GoError) := fun w =>
  match env.Normalize analyzed w with
  | ((normalized, err), w1) =>
    (Outcome.returned (normalized, err), [Event.Normalize analyzed normalized err], w1)

/-- `display.TemplateFile(tmplFile, normalized)`. -/
def display.TemplateFile (env : Env σ) (tmplFile : String) (normalized : List SourceUnit) :
    Proc σ (String × Option GoError) := fun w =>
  match env.TemplateFile tmplFile normalized w with
  | ((output, err), w1) =>
    (Outcome.returned (output, err), [Event.TemplateFile tmplFile output err], w1)

/-- `display.JSON(normalized)`. -/
def display.JSON (env : Env σ) (normalized : List SourceUnit) :
    Proc σ (String × Option GoError) := fun w =>
  match env.JSON normalized w with
  | ((output, err), w1) => (Outcome.returned (output, err), [Event.JSON output err], w1)

/-- `fossa.Upload(title, locator, options, normalized)`. -/
def fossa.Upload (env : Env σ) (title : String) (locator : Locator)
    (options : UploadOptions) (normalized : List SourceUnit) :
    Proc σ (Locator × Option GoError) := fun w =>
  match env.Upload title locator options normalized w with
  | ((result, err), w1) =>
    (Outcome.returned (result, err),
      [Event.Upload title locator options normalized result err], w1)

/-! ## The code of `analyze.go` -/

/-- The package variable `ShowOutput`. -/
def ShowOutput : String := "output"

/-- `fmt.Sprintf("Analyzing module (%d/%d): %s", i+1, len(modules), m.Name)`, with
`k = i+1` and `n = len(modules)`. -/
def progressText (k n : Nat) (name : String) : String :=
  "Analyzing module (" ++ toString k ++ "/" ++ toString n ++ "): " ++ name

/-- The `E_MISSING_API_KEY` error literal of `Run`. -/
def missingAPIKeyError (env : Env σ) : ErrorsError :=
  { Code := "E_MISSING_API_KEY"
    UserInput := true
    Message := "A FOSSA API key is needed to run this command."
    Troubleshooting :=
      "\n" ++ env.WrapString "Running `fossa analyze` performs a dependency analysis and uploads the result to FOSSA. To run an analysis without uploading results, run:" 78 ++
      "\n\n    " ++ env.HiGreenString "fossa analyze --output" ++
      "\n\n" ++ env.WrapString "You can provide your API key by setting the $FOSSA_API_KEY environment variable. For example, try running:" 78 ++
      "\n\n    " ++ env.HiGreenString "FOSSA_API_KEY=<YOUR_API_KEY_HERE> $command" ++
      "\n\n" ++ env.WrapString "You can create an API key for your FOSSA account at:" 78 ++
      "\n\n    " ++ env.HiBlueString "$endpoint/account/settings/integrations/api_tokens" ++
      "\n" }

/-- The body of the `for i, m := range modules` loop of `Do` (lines 114-158), for the
module `m` at index `i` of `n = len(modules)`; it returns the module appended to
`analyzed`. -/
def DoBody (env : Env σ) (n i : Nat) (m : Module) : Proc σ Module := do
  display.InProgress (progressText (i + 1) n m.Name)
  if m.Type_ = PkgType.Raw then do
    let r ← fossa.UploadTarball env m.BuildTarget
    (match r.2 with
     | some e => log.Warnf "Could not upload raw module: %s" (some e)
     | none => pure ())
    let id : ID := { Type_ := PkgType.Raw, Name := r.1.Project, Revision := r.1.Revision }
    pure { m with
      Imports := [{ Resolved := id }]
      Deps := PkgMap.set PkgMap.make id { ID := id } }
  else do
    let a ← analyzers.New env m
    match a.2 with
    | some e => do
      log.Warnf "Could not load analyzer: %s" (some e)
      pure m
    | none => do
      let b ← analyzers.IsBuilt a.1
      (match b.2 with
       | some e => log.Warnf "Could not determine whether module is built: %s" (some e)
       | none => pure ())
      (if !b.1 then log.Warnf "Module does not appear to be built" none else pure ())
      let d ← analyzers.Analyze a.1
      (match d.2 with
       | some e => log.Fatalf "Could not analyze: %s" (some e)
       | none => pure ())
      pure { m with Imports := d.1.Direct, Deps := d.1.Transitive }

/-- The `for i, m := range modules` loop of `Do`, from index `i` on, with the modules
still to visit and the `analyzed` slice built so far. -/
def DoLoop (env : Env σ) (n : Nat) : Nat → List Module → List Module → Proc σ (List Module)
  | _, [], analyzed => pure analyzed
  | i, m :: rest, analyzed => do
    let m1 ← DoBody env n i m
    DoLoop env n (i + 1) rest (analyzed ++ [m1])

/-- `Do(modules)`.  The named result `err` is never assigned (every `err` in the loop is
a new variable of an inner scope), so `Do` returns `nil` as its error. -/
def Do (env : Env σ) (modules : List Module) : Proc σ (List Module × Option GoError) :=
  withDefer display.ClearProgress do
    let analyzed ← DoLoop env modules.length 0 modules []
    display.ClearProgress
    pure (analyzed, none)

/-- `uploadAnalysis(normalized)`. -/
def uploadAnalysis (env : Env σ) (normalized : List SourceUnit) : Proc σ (Option GoError) := do
  display.InProgress "Uploading analysis..."
  let title ← readWorld env.Title
  let fetcher ← readWorld env.Fetcher
  let project ← readWorld env.Project
  let revision ← readWorld env.Revision
  let branch ← readWorld env.Branch
  let projectURL ← readWorld env.ProjectURL
  let jira ← readWorld env.JIRAProjectKey
  let link ← readWorld env.Link
  let team ← readWorld env.Team
  let r ← fossa.Upload env title
    { Fetcher := fetcher, Project := project, Revision := revision }
    { Branch := branch, ProjectURL := projectURL, JIRAProjectKey := jira, Link := link,
      Team := team }
    normalized
  display.ClearProgress
  match r.2 with
  | some e => do
    log.Fatalf "Error during upload: %s" (some e)
    pure r.2
  | none => do
    let url ← readWorld (env.ReportURL r.1)
    fmt.Println url
    pure none

/-- `Run(ctx)`.  Both cases of the `switch` on the error of `fossa.SetAPIKey` return
(the `default` case returns `err`, also when it is nil), so the code after that `if`
runs only when the show-output flag is set. -/
def Run (env : Env σ) (ctx : Context) : Proc σ (Option GoError) := do
  let err ← setup.SetContext env ctx
  (match err with
   | some e => log.Fatalf "Could not initialize: %s" (some e)
   | none => pure ())
  if !ctx.GetBool ShowOutput then do
    let key ← readWorld env.APIKey
    let err ← fossa.SetAPIKey env key
    match err with
    | some GoError.ErrMissingAPIKey =>
      pure (some (GoError.errorsError (missingAPIKeyError env)))
    | _ => pure err
  else do
    let ms ← config.Modules env
    (match ms.2 with
     | some e => log.Fatalf "Could not parse modules: %s" (some e)
     | none => pure ())
    (if ms.1.length = 0 then log.Fatalf "No modules specified." none else pure ())
    let an ← Do env ms.1
    match an.2 with
    | some e => do
      log.Fatalf "Could not analyze modules: %s" (some e)
      pure an.2
    | none => do
      log.Debugf "analyzed: %#v" an.1
      let nz ← fossa.Normalize env an.1
      match nz.2 with
      | some e => do
        log.Fatalf "Could not normalize output: %s" (some e)
        pure nz.2
      | none =>
        if ctx.GetBool ShowOutput then do
          let tmplFile := ctx.GetString env.Template
          if tmplFile ≠ "" then do
            let out ← display.TemplateFile env tmplFile nz.1
            fmt.Println out.1
            (match out.2 with
             | some e => log.Fatalf "Could not parse template data: %s" (some e)
             | none => pure ())
            pure none
          else do
            let out ← display.JSON env nz.1
            (match out.2 with
             | some e => log.Fatalf "Could not serialize to JSON: %s" (some e)
             | none => pure ())
            pure none
        else uploadAnalysis env nz.1

/-! ## Vocabulary of the statements -/

/-- Put events in front of what a later part of the run produced. -/
def after {α : Type} (evs : List Event) (r : Outcome α × List Event × σ) :
    Outcome α × List Event × σ := (r.1, evs ++ r.2.1, r.2.2)

/-- The module a raw upload that returned `locator` turns `m` into. -/
def rawLeaf (m : Module) (locator : Locator) : Module :=
  { m with
    Imports :=
      [{ Target := ""
         Resolved := { Type_ := PkgType.Raw, Name := locator.Project, Revision := locator.Revision } }]
    Deps :=
      [({ Type_ := PkgType.Raw, Name := locator.Project, Revision := locator.Revision },
        { ID := { Type_ := PkgType.Raw, Name := locator.Project, Revision := locator.Revision }
          Imports := [] })] }

/-- The warning of a raw upload that returned `err`. -/
def uploadWarnings (err : Option GoError) : List Event :=
  match err with
  | some e => [Event.Warnf "Could not upload raw module: %s" (some e)]
  | none => []

/-- The warnings of the advisory build check that returned `(built, err)`. -/
def builtWarnings (built : Bool) (err : Option GoError) : List Event :=
  (match err with
   | some e => [Event.Warnf "Could not determine whether module is built: %s" (some e)]
   | none => []) ++
  (if built then [] else [Event.Warnf "Module does not appear to be built" none])

/-- The world in which the loop of `Do` over `modules`, started in `w`, reaches index `j`:
the world after the first `j` modules, if the process did not exit on one of them. -/
def worldAt (env : Env σ) (modules : List Module) (w : σ) (j : Nat) : Option σ :=
  match DoLoop env modules.length 0 (modules.take j) [] w with
  | (Outcome.returned _, _, w1) => some w1
  | (Outcome.exited, _, _) => none

/-- Progress notifications. -/
def Event.isInProgress : Event → Bool
  | Event.InProgress _ => true
  | _ => false

/-- The call that dispatches a module: the raw upload or the analyzer binding. -/
def Event.isDispatch : Event → Bool
  | Event.UploadTarball _ _ _ => true
  | Event.New _ _ => true
  | _ => false

/-- Analyzer bindings. -/
def Event.isNew : Event → Bool
  | Event.New _ _ => true
  | _ => false

/-- Calls of `fossa.SetAPIKey`. -/
def Event.isSetAPIKey : Event → Bool
  | Event.SetAPIKey _ _ => true
  | _ => false

/-- The events the loop of `Do` can produce. -/
def Event.isLoopEvent : Event → Bool
  | Event.InProgress _ => true
  | Event.Warnf _ _ => true
  | Event.Fatalf _ _ => true
  | Event.UploadTarball _ _ _ => true
  | Event.New _ _ => true
  | Event.IsBuilt _ _ => true
  | Event.Analyze _ _ => true
  | _ => false

/-- The environment in which every raw upload reports success, with the locator and the
effect on the world it has in `env`. -/
def Env.withUploadsSucceeding (env : Env σ) : Env σ :=
  { env with
    UploadTarball := fun target w =>
      (((env.UploadTarball target w).1.1, none), (env.UploadTarball target w).2) }

/-- Drop what an event says about a raw-upload error: the error of an upload call is
cleared, the warning logged for a failed upload disappears. -/
def eraseUploadError : Event → List Event
  | Event.UploadTarball target locator _ => [Event.UploadTarball target locator none]
  | Event.Warnf format err =>
    if format = "Could not upload raw module: %s" then [] else [Event.Warnf format err]
  | e => [e]

/-- Drop what a trace says about raw-upload errors. -/
def eraseUploadErrors (evs : List Event) : List Event :=
  (evs.map eraseUploadError).flatten

/-! ## A concrete environment

World states count the collaborator calls made so far. -/

/-- What the example analyzers report for `m`: one dependency named after it. -/
def demoDeps (m : Module) : Deps :=
  { Direct :=
      [{ Target := "dep"
         Resolved := { Type_ := m.Type_, Name := m.Name ++ "-dep", Revision := "1.0" } }]
    Transitive :=
      [({ Type_ := m.Type_, Name := m.Name ++ "-dep", Revision := "1.0" },
        { ID := { Type_ := m.Type_, Name := m.Name ++ "-dep", Revision := "1.0" } })] }

/-- The example analyzer: the build check fails for the module named `unbuilt`, the
analysis fails for the module named `bad`. -/
def demoAnalyzer (m : Module) : Analyzer Nat :=
  { IsBuilt := fun w =>
      if m.Name = "unbuilt" then ((false, some (GoError.other "cannot stat")), w + 1)
      else ((true, none), w + 1)
    Analyze := fun w =>
      if m.Name = "bad" then
        (({ Direct := [], Transitive := [] }, some (GoError.other "analysis failed")), w + 1)
      else ((demoDeps m, none), w + 1) }

/-- The example environment: no analyzer exists for the module named `unknown`; only
`./vendor` can be uploaded; the API key is missing in world 1 and present elsewhere. -/
def demoEnv : Env Nat :=
  { New := fun m w =>
      if m.Name = "unknown" then ((demoAnalyzer m, some (GoError.other "no analyzer")), w + 1)
      else ((demoAnalyzer m, none), w + 1)
    UploadTarball := fun target w =>
      if target = "./vendor" then
        (({ Fetcher := "custom", Project := "myproj", Revision := "abc123" }, none), w + 1)
      else
        (({ Fetcher := "", Project := "", Revision := "" },
          some (GoError.other "upload failed")), w + 1)
    SetContext := fun _ w => (none, w + 1)
    SetAPIKey := fun key w =>
      if key = "" then (some GoError.ErrMissingAPIKey, w + 1) else (none, w + 1)
    Modules := fun w =>
      (([{ Name := "app", Type_ := PkgType.Ecosystem 1, BuildTarget := "." }], none), w + 1)
    Normalize := fun _ w => (([], none), w + 1)
    TemplateFile := fun _ _ w => (("", none), w + 1)
    JSON := fun _ w => (("[]", none), w + 1)
    Upload := fun _ locator _ _ w => ((locator, none), w + 1)
    ReportURL := fun locator _ => locator.Project
    APIKey := fun w => if w = 1 then "" else "key"
    Title := fun _ => "title"
    Fetcher := fun _ => "custom"
    Project := fun _ => "proj"
    Revision := fun _ => "rev"
    Branch := fun _ => "master"
    ProjectURL := fun _ => ""
    JIRAProjectKey := fun _ => ""
    Link := fun _ => ""
    Team := fun _ => ""
    Template := "template"
    WrapString := fun s _ => s
    HiGreenString := fun s => s
    HiBlueString := fun s => s }

/-- A module of ecosystem 1 that the example environment analyzes. -/
def appModule : Module := { Name := "app", Type_ := PkgType.Ecosystem 1, BuildTarget := "." }

/-- A module for which the example environment has no analyzer. -/
def unknownModule : Module :=
  { Name := "unknown", Type_ := PkgType.Ecosystem 2, BuildTarget := "./x" }

/-- A raw module whose upload succeeds in the example environment. -/
def vendorModule : Module := { Name := "vendored", Type_ := PkgType.Raw, BuildTarget := "./vendor" }

/-- A raw module whose upload fails in the example environment. -/
def missingModule : Module := { Name := "gone", Type_ := PkgType.Raw, BuildTarget := "./missing" }

/-- A module whose analysis fails in the example environment. -/
def badModule : Module := { Name := "bad", Type_ := PkgType.Ecosystem 1, BuildTarget := "./bad" }

/-- A module whose build check fails in the example environment. -/
def unbuiltModule : Module :=
  { Name := "unbuilt", Type_ := PkgType.Ecosystem 3, BuildTarget := "./u" }

/-- The command line `fossa analyze --output` with no template. -/
def outputCtx : Context := { GetBool := fun name => decide (name = "output"), GetString := fun _ => "" }

/-- The command line `fossa analyze`. -/
def uploadCtx : Context := { GetBool := fun _ => false, GetString := fun _ => "" }



/-- What `Do` returns for the example modules `app`, `unknown`, `vendored`. -/
def demoAnalyzed : List Module :=
  [{ appModule with Imports := (demoDeps appModule).Direct, Deps := (demoDeps appModule).Transitive },
   unknownModule,
   rawLeaf vendorModule { Fetcher := "custom", Project := "myproj", Revision := "abc123" }]

/-- The results the example analyzers report for `app` (index 0) and `unbuilt` (index 2). -/
def demoResults (j : Nat) : Deps :=
  if j = 0 then demoDeps appModule else demoDeps unbuiltModule

/-- The process never calls `fossa.SetAPIKey`. -/
structure NoSetAPIKey {α : Type} (x : Proc σ α) : Prop where
  no_call : ∀ w, ∀ e ∈ (x w).2.1, e.isSetAPIKey = false

/-- The example environment with a key that `fossa.SetAPIKey` accepts. -/
def keyedEnv : Env Nat := { demoEnv with APIKey := fun _ => "key" }

/-- The example environment configured with two modules, the second of which fails to
analyze. -/
def failingEnv : Env Nat :=
  { demoEnv with Modules := fun w => (([appModule, badModule], none), w + 1) }

/-! ## Running processes

Unfolding lemmas for sequencing, for the three ways a round of the loop can go, and for
splitting the loop at an index. -/

theorem bind_eq {α β : Type} (x : Proc σ α) (f : α → Proc σ β) (w : σ) :
    (x >>= f) w = Proc.seq x f w := rfl

theorem seq_returned {α β : Type} {x : Proc σ α} {f : α → Proc σ β} {w w1 : σ} {v : α}
    {evs : List Event} (h : x w = (Outcome.returned v, evs, w1)) :
    Proc.seq x f w = after evs (f v w1) := by
  simp [Proc.seq, h, after]

theorem seq_exited {α β : Type} {x : Proc σ α} {f : α → Proc σ β} {w w1 : σ}
    {evs : List Event} (h : x w = (Outcome.exited, evs, w1)) :
    Proc.seq x f w = (Outcome.exited, evs, w1) := by
  simp [Proc.seq, h]

theorem DoBody_raw (env : Env σ) (n i : Nat) (m : Module) (w : σ)
    (hraw : m.Type_ = PkgType.Raw) :
    DoBody env n i m w =
      (Outcome.returned (rawLeaf m (env.UploadTarball m.BuildTarget w).1.1),
       Event.InProgress (progressText (i + 1) n m.Name) ::
       Event.UploadTarball m.BuildTarget (env.UploadTarball m.BuildTarget w).1.1
          (env.UploadTarball m.BuildTarget w).1.2 ::
       (match (env.UploadTarball m.BuildTarget w).1.2 with
        | some e => [Event.Warnf "Could not upload raw module: %s" (some e)]
        | none => []),
       (env.UploadTarball m.BuildTarget w).2) := by
  rcases hu : env.UploadTarball m.BuildTarget w with ⟨⟨loc, err⟩, w1⟩
  cases err <;>
  simp [DoBody, hraw, bind_eq, Proc.seq, display.InProgress, emit, fossa.UploadTarball, hu,
    log.Warnf, pure, Proc.ret, rawLeaf, PkgMap.set, PkgMap.make]

theorem DoBody_bindFail (env : Env σ) (n i : Nat) (m : Module) (w : σ)
    (hraw : m.Type_ ≠ PkgType.Raw) (e : GoError) (hnew : (env.New m w).1.2 = some e) :
    DoBody env n i m w =
      (Outcome.returned m,
       [Event.InProgress (progressText (i + 1) n m.Name), Event.New m (some e),
        Event.Warnf "Could not load analyzer: %s" (some e)],
       (env.New m w).2) := by
  rcases hu : env.New m w with ⟨⟨an, err⟩, w1⟩
  rw [hu] at hnew
  simp at hnew
  subst hnew
  simp [DoBody, hraw, bind_eq, Proc.seq, display.InProgress, emit, analyzers.New, hu,
    log.Warnf, pure, Proc.ret]

theorem DoBody_analyze (env : Env σ) (n i : Nat) (m : Module) (w : σ)
    (hraw : m.Type_ ≠ PkgType.Raw) (hnew : (env.New m w).1.2 = none) :
    DoBody env n i m w =
      (let a := env.New m w
       let b := a.1.1.IsBuilt a.2
       let d := a.1.1.Analyze b.2
       ((match d.1.2 with
         | some _ => Outcome.exited
         | none => Outcome.returned { m with Imports := d.1.1.Direct, Deps := d.1.1.Transitive }),
        [Event.InProgress (progressText (i + 1) n m.Name), Event.New m none,
         Event.IsBuilt b.1.1 b.1.2] ++ builtWarnings b.1.1 b.1.2 ++
         [Event.Analyze d.1.1 d.1.2] ++
         (match d.1.2 with
          | some e => [Event.Fatalf "Could not analyze: %s" (some e)]
          | none => []),
        d.2)) := by
  rcases hu : env.New m w with ⟨⟨an, err⟩, w1⟩
  rw [hu] at hnew
  simp at hnew
  subst hnew
  rcases hb : an.IsBuilt w1 with ⟨⟨built, berr⟩, w2⟩
  rcases hd : an.Analyze w2 with ⟨⟨deps, derr⟩, w3⟩
  cases berr <;> cases built <;> cases derr <;>
  simp [DoBody, hraw, bind_eq, Proc.seq, display.InProgress, emit, analyzers.New, hu,
    analyzers.IsBuilt, analyzers.Analyze, hb, hd, log.Fatalf, os.Exit,
    log.Warnf, pure, Proc.ret, builtWarnings]

theorem after_after {α : Type} (e1 e2 : List Event) (r : Outcome α × List Event × σ) :
    after e1 (after e2 r) = after (e1 ++ e2) r := by
  simp [after]

theorem seq_assoc {α β γ : Type} (x : Proc σ α) (f : α → Proc σ β) (g : β → Proc σ γ) :
    Proc.seq (Proc.seq x f) g = Proc.seq x (fun v => Proc.seq (f v) g) := by
  funext w
  rcases hx : x w with ⟨o, evs, w1⟩
  cases o with
  | exited => simp [Proc.seq, hx]
  | returned v =>
    rcases hf : f v w1 with ⟨o2, evs2, w2⟩
    cases o2 with
    | exited => simp [Proc.seq, hx, hf]
    | returned v2 =>
      rcases hg : g v2 w2 with ⟨o3, evs3, w3⟩
      simp [Proc.seq, hx, hf, hg]

theorem DoLoop_nil (env : Env σ) (n i : Nat) (acc : List Module) (w : σ) :
    DoLoop env n i [] acc w = (Outcome.returned acc, [], w) := rfl

theorem DoLoop_cons (env : Env σ) (n i : Nat) (m : Module) (rest acc : List Module) :
    DoLoop env n i (m :: rest) acc =
      Proc.seq (DoBody env n i m) (fun m1 => DoLoop env n (i + 1) rest (acc ++ [m1])) := rfl

theorem DoLoop_append (env : Env σ) (n : Nat) (xs ys : List Module) :
    ∀ (i : Nat) (acc : List Module),
      DoLoop env n i (xs ++ ys) acc =
        Proc.seq (DoLoop env n i xs acc) (fun a => DoLoop env n (i + xs.length) ys a) := by
  induction xs with
  | nil =>
    intro i acc
    funext w
    simp [DoLoop_nil, Proc.seq]
  | cons m rest ih =>
    intro i acc
    rw [List.cons_append, DoLoop_cons, DoLoop_cons, seq_assoc]
    have h : (fun m1 => DoLoop env n (i + 1) (rest ++ ys) (acc ++ [m1])) =
        (fun v => Proc.seq (DoLoop env n (i + 1) rest (acc ++ [v]))
          (fun a => DoLoop env n (i + (m :: rest).length) ys a)) := by
      funext m1
      rw [ih]
      simp [Nat.add_assoc, Nat.add_comm 1]
    rw [h]

theorem DoBody_cases (env : Env σ) (n i : Nat) (m : Module) (w : σ) :
    (m.Type_ = PkgType.Raw ∧ ∃ L err w1, env.UploadTarball m.BuildTarget w = ((L, err), w1) ∧
      DoBody env n i m w =
        (Outcome.returned (rawLeaf m L),
         Event.InProgress (progressText (i + 1) n m.Name) ::
           Event.UploadTarball m.BuildTarget L err :: uploadWarnings err, w1)) ∨
    (m.Type_ ≠ PkgType.Raw ∧ ∃ an e w1, env.New m w = ((an, some e), w1) ∧
      DoBody env n i m w =
        (Outcome.returned m,
         [Event.InProgress (progressText (i + 1) n m.Name), Event.New m (some e),
          Event.Warnf "Could not load analyzer: %s" (some e)], w1)) ∨
    (m.Type_ ≠ PkgType.Raw ∧ ∃ an w1 built berr w2 d w3,
      env.New m w = ((an, none), w1) ∧ an.IsBuilt w1 = ((built, berr), w2) ∧
      an.Analyze w2 = ((d, none), w3) ∧
      DoBody env n i m w =
        (Outcome.returned { m with Imports := d.Direct, Deps := d.Transitive },
         Event.InProgress (progressText (i + 1) n m.Name) :: Event.New m none ::
           Event.IsBuilt built berr :: (builtWarnings built berr ++ [Event.Analyze d none]),
         w3)) ∨
    (m.Type_ ≠ PkgType.Raw ∧ ∃ an w1 built berr w2 d e w3,
      env.New m w = ((an, none), w1) ∧ an.IsBuilt w1 = ((built, berr), w2) ∧
      an.Analyze w2 = ((d, some e), w3) ∧
      DoBody env n i m w =
        (Outcome.exited,
         Event.InProgress (progressText (i + 1) n m.Name) :: Event.New m none ::
           Event.IsBuilt built berr ::
           (builtWarnings built berr ++
             [Event.Analyze d (some e), Event.Fatalf "Could not analyze: %s" (some e)]),
         w3)) := by
  by_cases hraw : m.Type_ = PkgType.Raw
  · left
    refine ⟨hraw, ?_⟩
    rcases hu : env.UploadTarball m.BuildTarget w with ⟨⟨L, err⟩, w1⟩
    refine ⟨L, err, w1, rfl, ?_⟩
    rw [DoBody_raw env n i m w hraw, hu]
    cases err <;> simp [uploadWarnings]
  · right
    rcases hu : env.New m w with ⟨⟨an, err⟩, w1⟩
    cases err with
    | some e =>
      left
      refine ⟨hraw, an, e, w1, rfl, ?_⟩
      rw [DoBody_bindFail env n i m w hraw e (by rw [hu])]
      simp [hu]
    | none =>
      right
      rcases hb : an.IsBuilt w1 with ⟨⟨built, berr⟩, w2⟩
      rcases hd : an.Analyze w2 with ⟨⟨d, derr⟩, w3⟩
      have h := DoBody_analyze env n i m w hraw (by rw [hu])
      simp only [hu, hb, hd] at h
      cases derr with
      | none =>
        left
        refine ⟨hraw, an, w1, built, berr, w2, d, w3, rfl, hb, hd, ?_⟩
        rw [h]
        simp
      | some e =>
        right
        refine ⟨hraw, an, w1, built, berr, w2, d, e, w3, rfl, hb, hd, ?_⟩
        rw [h]
        simp

theorem DoLoop_returned (env : Env σ) (n : Nat) (xs : List Module) :
    ∀ (i : Nat) (acc : List Module) (w : σ) (a : List Module) (evs : List Event) (w1 : σ),
      DoLoop env n i xs acc w = (Outcome.returned a, evs, w1) →
      ∃ out, a = acc ++ out ∧ out.length = xs.length := by
  induction xs with
  | nil =>
    intro i acc w a evs w1 h
    rw [DoLoop_nil] at h
    simp at h
    exact ⟨[], by simp [h.1]⟩
  | cons m rest ih =>
    intro i acc w a evs w1 h
    rw [DoLoop_cons] at h
    rcases hb : DoBody env n i m w with ⟨o, evs0, w0⟩
    cases o with
    | exited =>
      rw [seq_exited hb] at h
      simp at h
    | returned m1 =>
      rw [seq_returned hb] at h
      rcases hr : DoLoop env n (i + 1) rest (acc ++ [m1]) w0 with ⟨o2, evs2, w2⟩
      rw [hr] at h
      simp [after] at h
      rcases h with ⟨h1, -, -⟩
      subst h1
      obtain ⟨out, ha, hl⟩ := ih _ _ _ _ _ _ hr
      exact ⟨m1 :: out, by simp [ha], by simp [hl]⟩

theorem Do_run (env : Env σ) (ms : List Module) (w : σ) :
    Do env ms w =
      (match DoLoop env ms.length 0 ms [] w with
       | (Outcome.returned a, evs, w1) =>
         (Outcome.returned (a, none), evs ++ [Event.ClearProgress, Event.ClearProgress], w1)
       | (Outcome.exited, evs, w1) => (Outcome.exited, evs, w1)) := by
  rcases h : DoLoop env ms.length 0 ms [] w with ⟨o, evs, w1⟩
  cases o <;>
  simp [Do, withDefer, bind_eq, Proc.seq, h, display.ClearProgress, emit, pure, Proc.ret]

theorem split_at (xs : List Module) (j : Nat) (m : Module) (hj : xs[j]? = some m) :
    xs = xs.take j ++ m :: xs.drop (j + 1) ∧ (xs.take j).length = j := by
  have hlt : j < xs.length := by
    rcases Nat.lt_or_ge j xs.length with h | h
    · exact h
    · rw [List.getElem?_eq_none h] at hj
      simp at hj
  have hm : xs[j] = m := by
    rw [List.getElem?_eq_getElem hlt] at hj
    simpa using hj
  constructor
  · rw [← hm, ← List.drop_eq_getElem_cons hlt, List.take_append_drop]
  · simp [List.length_take, Nat.le_of_lt hlt]

theorem DoLoop_split (env : Env σ) (n : Nat) (xs : List Module) (j : Nat) (m : Module)
    (hj : xs[j]? = some m) (i : Nat) (acc : List Module) :
    DoLoop env n i xs acc =
      Proc.seq (DoLoop env n i (xs.take j) acc) (fun a =>
        Proc.seq (DoBody env n (i + j) m) (fun m1 =>
          DoLoop env n (i + j + 1) (xs.drop (j + 1)) (a ++ [m1]))) := by
  obtain ⟨hx, hl⟩ := split_at xs j m hj
  conv_lhs => rw [hx]
  rw [DoLoop_append, hl]
  rfl

/-! ## What one round of the loop does -/

theorem builtWarnings_loopEvent (built : Bool) (berr : Option GoError) :
    ∀ e ∈ builtWarnings built berr, e.isLoopEvent = true ∧ e.isInProgress = false := by
  intro e he
  cases built <;> cases berr <;> simp [builtWarnings] at he <;>
    (try rcases he with he | he) <;> subst_vars <;> simp [Event.isLoopEvent, Event.isInProgress]

theorem uploadWarnings_loopEvent (err : Option GoError) :
    ∀ e ∈ uploadWarnings err, e.isLoopEvent = true ∧ e.isInProgress = false := by
  intro e he
  cases err <;> simp [uploadWarnings] at he
  subst he
  simp [Event.isLoopEvent, Event.isInProgress]

/-- Every round starts with its progress notification, then dispatches the module; no
further progress notification follows, and only loop events occur. -/
theorem DoBody_trace (env : Env σ) (n i : Nat) (m : Module) (w : σ) :
    ∃ call tail,
      (DoBody env n i m w).2.1 =
        Event.InProgress (progressText (i + 1) n m.Name) :: call :: tail ∧
      call.isDispatch = true ∧
      ∀ e ∈ call :: tail, e.isInProgress = false ∧ e.isLoopEvent = true := by
  rcases DoBody_cases env n i m w with
    ⟨-, L, err, w1, -, h⟩ | ⟨-, an, e, w1, -, h⟩ |
    ⟨-, an, w1, built, berr, w2, d, w3, -, -, -, h⟩ |
    ⟨-, an, w1, built, berr, w2, d, e, w3, -, -, -, h⟩
  · refine ⟨_, uploadWarnings err, by rw [h], ?_, ?_⟩
    · rfl
    intro e he
    rcases List.mem_cons.1 he with he | he
    · subst he
      simp [Event.isLoopEvent, Event.isInProgress]
    · exact ⟨(uploadWarnings_loopEvent err e he).2, (uploadWarnings_loopEvent err e he).1⟩
  · refine ⟨_, _, by rw [h], ?_, ?_⟩
    · rfl
    intro e he
    simp at he
    rcases he with he | he <;> subst he <;> simp [Event.isLoopEvent, Event.isInProgress]
  · refine ⟨_, _, by rw [h], ?_, ?_⟩
    · rfl
    intro e he
    simp at he
    rcases he with he | he | he | he
    · subst he; simp [Event.isLoopEvent, Event.isInProgress]
    · subst he; simp [Event.isLoopEvent, Event.isInProgress]
    · exact ⟨(builtWarnings_loopEvent built berr e he).2, (builtWarnings_loopEvent built berr e he).1⟩
    · subst he; simp [Event.isLoopEvent, Event.isInProgress]
  · refine ⟨_, _, by rw [h], ?_, ?_⟩
    · rfl
    intro e0 he
    simp at he
    rcases he with he | he | he | he | he
    · subst he; simp [Event.isLoopEvent, Event.isInProgress]
    · subst he; simp [Event.isLoopEvent, Event.isInProgress]
    · exact ⟨(builtWarnings_loopEvent built berr e0 he).2, (builtWarnings_loopEvent built berr e0 he).1⟩
    · subst he; simp [Event.isLoopEvent, Event.isInProgress]
    · subst he; simp [Event.isLoopEvent, Event.isInProgress]

theorem DoBody_loopEvents (env : Env σ) (n i : Nat) (m : Module) (w : σ) :
    ∀ e ∈ (DoBody env n i m w).2.1, e.isLoopEvent = true := by
  obtain ⟨call, tail, h, -, ht⟩ := DoBody_trace env n i m w
  intro e he
  rw [h] at he
  rcases List.mem_cons.1 he with he | he
  · subst he; rfl
  · exact (ht e he).2

/-- A round keeps the name, the type and the build target of its module. -/
theorem DoBody_identity (env : Env σ) (n i : Nat) (m m1 : Module) (w : σ)
    (h : (DoBody env n i m w).1 = Outcome.returned m1) :
    m1.Name = m.Name ∧ m1.Type_ = m.Type_ ∧ m1.BuildTarget = m.BuildTarget := by
  rcases DoBody_cases env n i m w with
    ⟨-, L, err, w1, -, hb⟩ | ⟨-, an, e, w1, -, hb⟩ |
    ⟨-, an, w1, built, berr, w2, d, w3, -, -, -, hb⟩ |
    ⟨-, an, w1, built, berr, w2, d, e, w3, -, -, -, hb⟩
  · rw [hb] at h
    simp at h
    subst h
    simp [rawLeaf]
  · rw [hb] at h
    simp at h
    subst h
    simp
  · rw [hb] at h
    simp at h
    subst h
    simp
  · rw [hb] at h
    simp at h

/-! ## What the loop does -/

theorem DoLoop_loopEvents (env : Env σ) (n : Nat) (xs : List Module) :
    ∀ (i : Nat) (acc : List Module) (w : σ),
      ∀ e ∈ (DoLoop env n i xs acc w).2.1, e.isLoopEvent = true := by
  induction xs with
  | nil =>
    intro i acc w e he
    simp [DoLoop_nil] at he
  | cons m rest ih =>
    intro i acc w e he
    rw [DoLoop_cons] at he
    rcases hb : DoBody env n i m w with ⟨o, evs0, w0⟩
    have h0 := DoBody_loopEvents env n i m w
    rw [hb] at h0
    cases o with
    | exited =>
      rw [seq_exited hb] at he
      exact h0 e he
    | returned m1 =>
      rw [seq_returned hb] at he
      simp only [after, List.mem_append] at he
      rcases he with he | he
      · exact h0 e he
      · exact ih _ _ _ e he

/-- The loop emits the modules index for index. -/
theorem DoLoop_identity (env : Env σ) (n : Nat) (xs : List Module) :
    ∀ (i : Nat) (acc : List Module) (w : σ) (a : List Module),
      (DoLoop env n i xs acc w).1 = Outcome.returned a →
      ∃ out, a = acc ++ out ∧ out.length = xs.length ∧
        ∀ (k : Nat) (m : Module), xs[k]? = some m →
          ∃ m1, out[k]? = some m1 ∧ m1.Name = m.Name ∧ m1.Type_ = m.Type_ ∧
            m1.BuildTarget = m.BuildTarget := by
  induction xs with
  | nil =>
    intro i acc w a h
    simp [DoLoop_nil] at h
    exact ⟨[], by simp [h], rfl, by simp⟩
  | cons m rest ih =>
    intro i acc w a h
    rw [DoLoop_cons] at h
    rcases hb : DoBody env n i m w with ⟨o, evs0, w0⟩
    cases o with
    | exited =>
      rw [seq_exited hb] at h
      simp at h
    | returned m1 =>
      rw [seq_returned hb] at h
      simp only [after] at h
      obtain ⟨out, ha, hl, hk⟩ := ih _ _ _ _ h
      refine ⟨m1 :: out, by simp [ha], by simp [hl], ?_⟩
      intro k mk hmk
      cases k with
      | zero =>
        simp at hmk
        subst hmk
        exact ⟨m1, by simp, DoBody_identity env n i m m1 w (by rw [hb])⟩
      | succ k =>
        simp at hmk
        simpa using hk k mk hmk

/-- C1: whenever `Do` returns (the process did not exit), it returns exactly as many
modules as it was given, with a nil error, and at every index the returned module has the
Name, Type and BuildTarget of the input module at that index. -/
theorem C1_Do_totality_order (env : Env σ) (modules : List Module) (w : σ)
    (analyzed : List Module) (err : Option GoError)
    (h : (Do env modules w).1 = Outcome.returned (analyzed, err)) :
    analyzed.length = modules.length ∧ err = none ∧
    ∀ (i : Nat) (m : Module), modules[i]? = some m →
      ∃ m1, analyzed[i]? = some m1 ∧ m1.Name = m.Name ∧ m1.Type_ = m.Type_ ∧
        m1.BuildTarget = m.BuildTarget := by
  rw [Do_run] at h
  rcases hl : DoLoop env modules.length 0 modules [] w with ⟨o, evs, w1⟩
  rw [hl] at h
  cases o with
  | exited => simp at h
  | returned a =>
    simp at h
    obtain ⟨out, ha, hlen, hk⟩ := DoLoop_identity env _ modules 0 [] w a (by rw [hl])
    simp at ha
    subst ha
    rcases h with ⟨h1, h2⟩
    subst h1
    exact ⟨hlen, h2.symm, hk⟩

theorem C1_Do_totality_order_witness :
    demoAnalyzed.length = [appModule, unknownModule, vendorModule].length ∧
    (none : Option GoError) = none ∧
    ∀ (i : Nat) (m : Module), [appModule, unknownModule, vendorModule][i]? = some m →
      ∃ m1, demoAnalyzed[i]? = some m1 ∧ m1.Name = m.Name ∧ m1.Type_ = m.Type_ ∧
        m1.BuildTarget = m.BuildTarget :=
  C1_Do_totality_order demoEnv [appModule, unknownModule, vendorModule] 0 demoAnalyzed none
    (by decide)

theorem builtWarnings_counts (built : Bool) (berr : Option GoError) :
    (builtWarnings built berr).countP Event.isInProgress = 0 ∧
    (builtWarnings built berr).countP Event.isDispatch = 0 ∧
    ∀ d e, Event.Analyze d e ∉ builtWarnings built berr := by
  cases built <;> cases berr <;>
    simp [builtWarnings, List.countP_cons, Event.isInProgress, Event.isDispatch]

theorem uploadWarnings_counts (err : Option GoError) :
    (uploadWarnings err).countP Event.isInProgress = 0 ∧
    (uploadWarnings err).countP Event.isDispatch = 0 ∧
    ∀ d e, Event.Analyze d e ∉ uploadWarnings err := by
  cases err <;>
    simp [uploadWarnings, List.countP_cons, Event.isInProgress, Event.isDispatch]

/-- Every round emits one progress notification and dispatches its module once. -/
theorem DoBody_counts (env : Env σ) (n i : Nat) (m : Module) (w : σ) :
    (DoBody env n i m w).2.1.countP Event.isInProgress = 1 ∧
    (DoBody env n i m w).2.1.countP Event.isDispatch = 1 := by
  rcases DoBody_cases env n i m w with
    ⟨-, L, err, w1, -, h⟩ | ⟨-, an, e, w1, -, h⟩ |
    ⟨-, an, w1, built, berr, w2, d, w3, -, -, -, h⟩ |
    ⟨-, an, w1, built, berr, w2, d, e, w3, -, -, -, h⟩
  · rw [h]
    simp [List.countP_cons, Event.isInProgress, Event.isDispatch, uploadWarnings_counts]
  · rw [h]
    simp [List.countP_cons, Event.isInProgress, Event.isDispatch]
  · rw [h]
    simp [List.countP_cons, Event.isInProgress, Event.isDispatch, builtWarnings_counts]
  · rw [h]
    simp [List.countP_cons, Event.isInProgress, Event.isDispatch, builtWarnings_counts]

/-- A round ends the process exactly when its `Analyze` call fails; the failure and the
fatal log entry are then the last two events. -/
theorem DoBody_exited_iff (env : Env σ) (n i : Nat) (m : Module) (w : σ) :
    ((DoBody env n i m w).1 = Outcome.exited ↔
      ∃ d e, Event.Analyze d (some e) ∈ (DoBody env n i m w).2.1) := by
  rcases DoBody_cases env n i m w with
    ⟨-, L, err, w1, -, h⟩ | ⟨-, an, e, w1, -, h⟩ |
    ⟨-, an, w1, built, berr, w2, d, w3, -, -, -, h⟩ |
    ⟨-, an, w1, built, berr, w2, d, e, w3, -, -, -, h⟩
  · rw [h]
    simp [uploadWarnings_counts]
  · rw [h]
    simp
  · rw [h]
    simp [builtWarnings_counts]
  · rw [h]
    simp [builtWarnings_counts]

theorem DoLoop_exited_iff (env : Env σ) (n : Nat) (xs : List Module) :
    ∀ (i : Nat) (acc : List Module) (w : σ),
      ((DoLoop env n i xs acc w).1 = Outcome.exited ↔
        ∃ d e, Event.Analyze d (some e) ∈ (DoLoop env n i xs acc w).2.1) := by
  induction xs with
  | nil =>
    intro i acc w
    simp [DoLoop_nil]
  | cons m rest ih =>
    intro i acc w
    rw [DoLoop_cons]
    rcases hb : DoBody env n i m w with ⟨o, evs0, w0⟩
    have h0 := DoBody_exited_iff env n i m w
    rw [hb] at h0
    cases o with
    | exited =>
      rw [seq_exited hb]
      simpa using h0
    | returned m1 =>
      rw [seq_returned hb]
      have h1 := ih (i + 1) (acc ++ [m1]) w0
      simp only [after, List.mem_append]
      simp at h0
      rw [h1]
      constructor
      · rintro ⟨d, e, h⟩
        exact ⟨d, e, Or.inr h⟩
      · rintro ⟨d, e, h | h⟩
        · exact absurd h (h0 d e)
        · exact ⟨d, e, h⟩

theorem DoLoop_counts (env : Env σ) (n : Nat) (xs : List Module) :
    ∀ (i : Nat) (acc : List Module) (w : σ) (a : List Module),
      (DoLoop env n i xs acc w).1 = Outcome.returned a →
      (DoLoop env n i xs acc w).2.1.countP Event.isInProgress = xs.length ∧
      (DoLoop env n i xs acc w).2.1.countP Event.isDispatch = xs.length := by
  induction xs with
  | nil =>
    intro i acc w a _
    simp [DoLoop_nil]
  | cons m rest ih =>
    intro i acc w a h
    rw [DoLoop_cons] at h ⊢
    rcases hb : DoBody env n i m w with ⟨o, evs0, w0⟩
    have h0 := DoBody_counts env n i m w
    rw [hb] at h0
    cases o with
    | exited =>
      rw [seq_exited hb] at h
      simp at h
    | returned m1 =>
      rw [seq_returned hb] at h ⊢
      simp only [after] at h ⊢
      obtain ⟨h1, h2⟩ := ih _ _ _ _ h
      simp only [List.countP_append, h1, h2, h0.1, h0.2, List.length_cons]
      omega

theorem DoLoop_exit_at (env : Env σ) (n : Nat) (xs : List Module) (j : Nat) (m : Module)
    (hj : xs[j]? = some m) (w : σ) (pre : List Module) (evs1 : List Event) (w1 : σ)
    (evs2 : List Event) (w2 : σ)
    (h1 : DoLoop env n 0 (xs.take j) [] w = (Outcome.returned pre, evs1, w1))
    (h2 : DoBody env n j m w1 = (Outcome.exited, evs2, w2)) :
    DoLoop env n 0 xs [] w = (Outcome.exited, evs1 ++ evs2, w2) := by
  rw [DoLoop_split env n xs j m hj, seq_returned h1]
  simp only [Nat.zero_add]
  rw [seq_exited h2]
  simp [after]

theorem worldAt_eq (env : Env σ) (modules : List Module) (w w1 : σ) (j : Nat)
    (h : worldAt env modules w j = some w1) :
    ∃ pre evs1, DoLoop env modules.length 0 (modules.take j) [] w =
      (Outcome.returned pre, evs1, w1) := by
  unfold worldAt at h
  rcases hl : DoLoop env modules.length 0 (modules.take j) [] w with ⟨o, evs, w0⟩
  rw [hl] at h
  cases o with
  | exited => simp at h
  | returned pre =>
    simp at h
    subst h
    exact ⟨pre, evs, rfl⟩

theorem take_succ_index (xs : List Module) (j : Nat) (m : Module) (hj : xs[j]? = some m) :
    (xs.take (j + 1))[j]? = some m ∧ (xs.take (j + 1)).take j = xs.take j := by
  constructor
  · rw [List.getElem?_take_of_lt (Nat.lt_succ_self j)]
    exact hj
  · rw [List.take_take]
    simp

/-- C2 (as amended): `Do` ends the process exactly when an `Analyze` call made during the
run fails (no other path aborts), and it never hands an error to its caller: whenever it
returns, its error result is nil.  When `Analyze` fails for the module at index `i`, `Do`
does not return: the process is terminated by the fatal log entry `Could not analyze: ...`
right after that call, so no module list is returned; the run is exactly the loop over the
modules up to `i`: it made `i + 1` progress notifications and dispatched `i + 1`
modules. -/
theorem C2_Do_fatal_abort (env : Env σ) (modules : List Module) (w : σ) :
    ((Do env modules w).1 = Outcome.exited ↔
      ∃ d e, Event.Analyze d (some e) ∈ (Do env modules w).2.1) ∧
    (∀ analyzed err, (Do env modules w).1 = Outcome.returned (analyzed, err) → err = none) ∧
    ∀ (i : Nat) (m : Module) (w1 : σ) (an : Analyzer σ) (w2 : σ) (built : Bool)
      (berr : Option GoError) (w3 : σ) (d : Deps) (e : GoError) (w4 : σ),
      modules[i]? = some m → worldAt env modules w i = some w1 →
      m.Type_ ≠ PkgType.Raw → env.New m w1 = ((an, none), w2) →
      an.IsBuilt w2 = ((built, berr), w3) → an.Analyze w3 = ((d, some e), w4) →
      (Do env modules w).1 = Outcome.exited ∧
      (∃ before, (Do env modules w).2.1 =
        before ++ [Event.Analyze d (some e),
          Event.Fatalf "Could not analyze: %s" (some e)]) ∧
      (Do env modules w).2 = (DoLoop env modules.length 0 (modules.take (i + 1)) [] w).2 ∧
      (Do env modules w).2.1.countP Event.isInProgress = i + 1 ∧
      (Do env modules w).2.1.countP Event.isDispatch = i + 1 := by
  refine ⟨?_, ?_, ?_⟩
  · rw [Do_run]
    have h := DoLoop_exited_iff env modules.length modules 0 [] w
    rcases hl : DoLoop env modules.length 0 modules [] w with ⟨o, evs, w1⟩
    rw [hl] at h
    cases o with
    | exited => simpa using h
    | returned a => simpa using h
  · intro analyzed err hret
    rw [Do_run] at hret
    rcases hl : DoLoop env modules.length 0 modules [] w with ⟨o, evs, w1⟩
    rw [hl] at hret
    cases o with
    | exited => simp at hret
    | returned a =>
      simp at hret
      exact hret.2.symm
  · intro i m w1 an w2 built berr w3 d e w4 hi hw hraw hnew hb hd
    obtain ⟨pre, evs1, h1⟩ := worldAt_eq env modules w w1 i hw
    rcases DoBody_cases env modules.length i m w1 with
      ⟨hr, -⟩ | ⟨-, an0, e0, w0, hn, -⟩ |
      ⟨-, an0, w20, built0, berr0, w30, d0, w40, hn, hb0, hd0, -⟩ |
      ⟨-, an0, w20, built0, berr0, w30, d0, e0, w40, hn, hb0, hd0, h2⟩
    · exact absurd hr hraw
    · rw [hnew] at hn
      simp at hn
    · rw [hnew] at hn
      simp at hn
      obtain ⟨rfl, rfl⟩ := hn
      rw [hb] at hb0
      simp at hb0
      obtain ⟨-, rfl⟩ := hb0
      rw [hd] at hd0
      simp at hd0
    · rw [hnew] at hn
      simp at hn
      obtain ⟨rfl, rfl⟩ := hn
      rw [hb] at hb0
      simp at hb0
      obtain ⟨⟨rfl, rfl⟩, rfl⟩ := hb0
      rw [hd] at hd0
      simp at hd0
      obtain ⟨⟨rfl, rfl⟩, rfl⟩ := hd0
      have hfull := DoLoop_exit_at env modules.length modules i m hi w pre evs1 w1 _ _ h1 h2
      have hti := take_succ_index modules i m hi
      have hpart := DoLoop_exit_at env modules.length (modules.take (i + 1)) i m hti.1 w pre
        evs1 w1 _ _ (by rw [hti.2]; exact h1) h2
      have hc1 := DoLoop_counts env modules.length (modules.take i) 0 [] w pre (by rw [h1])
      have hc2 := DoBody_counts env modules.length i m w1
      have hlen : (modules.take i).length = i := (split_at modules i m hi).2
      rw [h1, hlen] at hc1
      rw [h2] at hc2
      rw [Do_run, hfull, hpart]
      refine ⟨rfl, ⟨evs1 ++ Event.InProgress (progressText (i + 1) modules.length m.Name) ::
        Event.New m none :: Event.IsBuilt built berr :: builtWarnings built berr, by simp⟩,
        rfl, ?_, ?_⟩
      · simp only [List.countP_append]
        rw [hc1.1, hc2.1]
      · simp only [List.countP_append]
        rw [hc1.2, hc2.2]

theorem C2_Do_fatal_abort_witness :
    (Do demoEnv [appModule, badModule, vendorModule] 0).1 = Outcome.exited ∧
    (∃ before, (Do demoEnv [appModule, badModule, vendorModule] 0).2.1 =
      before ++ [Event.Analyze { Direct := [], Transitive := [] }
          (some (GoError.other "analysis failed")),
        Event.Fatalf "Could not analyze: %s" (some (GoError.other "analysis failed"))]) ∧
    (Do demoEnv [appModule, badModule, vendorModule] 0).2 =
      (DoLoop demoEnv [appModule, badModule, vendorModule].length 0
        ([appModule, badModule, vendorModule].take (1 + 1)) [] 0).2 ∧
    (Do demoEnv [appModule, badModule, vendorModule] 0).2.1.countP Event.isInProgress = 1 + 1 ∧
    (Do demoEnv [appModule, badModule, vendorModule] 0).2.1.countP Event.isDispatch = 1 + 1 :=
  (C2_Do_fatal_abort demoEnv [appModule, badModule, vendorModule] 0).2.2 1 badModule 3
    (demoAnalyzer badModule) 4 true none 5 { Direct := [], Transitive := [] }
    (GoError.other "analysis failed") 6 (by decide) (by decide) (by decide) (by rfl)
    (by rfl) (by rfl)

/-- C2 (counterexample): with `Analyze` failing for the second of three modules, `Do`
hands nothing to its caller: it ends the process instead of returning, so there is no
returned error (and no returned list).  Seen from the caller: in the run of
`fossa analyze --output` over such modules, `Run` is ended inside `Do`; its own handler
`Could not analyze modules: ...` for an error returned by `Do` never logs. -/
theorem C2_Do_hands_no_error_to_caller :
    Event.Analyze { Direct := [], Transitive := [] } (some (GoError.other "analysis failed")) ∈
      (Do demoEnv [appModule, badModule, vendorModule] 0).2.1 ∧
    (Do demoEnv [appModule, badModule, vendorModule] 0).1 = Outcome.exited ∧
    (¬ ∃ analyzed err, (Do demoEnv [appModule, badModule, vendorModule] 0).1 =
      Outcome.returned (analyzed, err)) ∧
    (Run failingEnv outputCtx 0).1 = Outcome.exited ∧
    (Run failingEnv outputCtx 0).2.1.getLast? =
      some (Event.Fatalf "Could not analyze: %s" (some (GoError.other "analysis failed"))) ∧
    Event.Fatalf "Could not analyze modules: %s" (some (GoError.other "analysis failed")) ∉
      (Run failingEnv outputCtx 0).2.1 := by
  refine ⟨by decide, by decide, ?_, by decide, by decide, by decide⟩
  rintro ⟨analyzed, err, h⟩
  have hex : (Do demoEnv [appModule, badModule, vendorModule] 0).1 = Outcome.exited := by
    decide
  rw [hex] at h
  cases h

theorem isLoopEvent_ne_clear (e : Event) (h : e.isLoopEvent = true) :
    e ≠ Event.ClearProgress := by
  intro hc
  subst hc
  simp [Event.isLoopEvent] at h

/-- C7 (as amended): whenever `Do` returns, its trace is the trace of the loop, which
contains no ClearProgress notification, followed by exactly two ClearProgress
notifications (the call after the loop and the deferred call); so every InProgress
notification of the run comes before them. -/
theorem C7_Do_clear_progress_on_return (env : Env σ) (modules : List Module) (w : σ)
    (v : List Module × Option GoError) (h : (Do env modules w).1 = Outcome.returned v) :
    (∃ loopTrace,
      (Do env modules w).2.1 = loopTrace ++ [Event.ClearProgress, Event.ClearProgress] ∧
      (∀ e ∈ loopTrace, e ≠ Event.ClearProgress) ∧
      (∀ e ∈ [Event.ClearProgress, Event.ClearProgress], Event.isInProgress e = false)) ∧
    (Do env modules w).2.1.count Event.ClearProgress = 2 := by
  rw [Do_run] at h ⊢
  have hev := DoLoop_loopEvents env modules.length modules 0 [] w
  rcases hl : DoLoop env modules.length 0 modules [] w with ⟨o, evs, w1⟩
  rw [hl] at h hev
  cases o with
  | exited => simp at h
  | returned a =>
    have hne : ∀ e ∈ evs, e ≠ Event.ClearProgress :=
      fun e he => isLoopEvent_ne_clear e (hev e he)
    refine ⟨⟨evs, rfl, hne, by simp [Event.isInProgress]⟩, ?_⟩
    have h0 : evs.count Event.ClearProgress = 0 :=
      List.count_eq_zero.2 (fun hmem => hne _ hmem rfl)
    simp [List.count_append, h0]

theorem C7_Do_clear_progress_on_return_witness :
    (∃ loopTrace,
      (Do demoEnv [appModule, unknownModule, vendorModule] 0).2.1 =
        loopTrace ++ [Event.ClearProgress, Event.ClearProgress] ∧
      (∀ e ∈ loopTrace, e ≠ Event.ClearProgress) ∧
      (∀ e ∈ [Event.ClearProgress, Event.ClearProgress], Event.isInProgress e = false)) ∧
    (Do demoEnv [appModule, unknownModule, vendorModule] 0).2.1.count Event.ClearProgress = 2 :=
  C7_Do_clear_progress_on_return demoEnv [appModule, unknownModule, vendorModule] 0
    (demoAnalyzed, none) (by decide)

/-- C7 (counterexample): on normal completion the trace holds two ClearProgress
notifications, also for the empty list, and on the abort path (the process exits inside
`log.Fatalf`, so the deferred call does not run) it holds none; in no case exactly one. -/
theorem C7_exactly_one_clear_progress_fails :
    (Do demoEnv [] 0).1 = Outcome.returned ([], none) ∧
    (Do demoEnv [] 0).2.1 = [Event.ClearProgress, Event.ClearProgress] ∧
    (Do demoEnv [] 0).2.1.count Event.ClearProgress ≠ 1 ∧
    (Do demoEnv [appModule] 0).2.1.count Event.ClearProgress = 2 ∧
    (Do demoEnv [badModule] 0).1 = Outcome.exited ∧
    (Do demoEnv [badModule] 0).2.1.count Event.ClearProgress = 0 := by
  decide

/-! ## Progress notifications -/

theorem DoLoop_inProgress (env : Env σ) (n : Nat) (xs : List Module) :
    ∀ (i : Nat) (acc : List Module) (w : σ) (a : List Module),
      (DoLoop env n i xs acc w).1 = Outcome.returned a →
      (DoLoop env n i xs acc w).2.1.filter Event.isInProgress =
        (xs.enumFrom i).map
          (fun p => Event.InProgress (progressText (p.1 + 1) n p.2.Name)) := by
  induction xs with
  | nil =>
    intro i acc w a _
    simp [DoLoop_nil]
  | cons m rest ih =>
    intro i acc w a h
    rw [DoLoop_cons] at h ⊢
    rcases hb : DoBody env n i m w with ⟨o, evs0, w0⟩
    obtain ⟨call, tail, h0, -, ht⟩ := DoBody_trace env n i m w
    rw [hb] at h0
    simp only at h0
    cases o with
    | exited =>
      rw [seq_exited hb] at h
      simp at h
    | returned m1 =>
      rw [seq_returned hb] at h ⊢
      simp only [after] at h ⊢
      have hf : (call :: tail).filter Event.isInProgress = [] :=
        List.filter_eq_nil_iff.2 (fun e he => by simp [(ht e he).1])
      rw [List.filter_append, ih _ _ _ _ h, h0, List.filter_cons_of_pos (by rfl), hf]
      simp [List.enumFrom_cons]

theorem DoLoop_segments (env : Env σ) (n : Nat) (xs : List Module) :
    ∀ (i : Nat) (acc : List Module) (w : σ) (a : List Module),
      (DoLoop env n i xs acc w).1 = Outcome.returned a →
      ∃ segs : List (List Event), segs.length = xs.length ∧
        (DoLoop env n i xs acc w).2.1 = segs.flatten ∧
        ∀ (k : Nat) (m : Module), xs[k]? = some m →
          ∃ call tail,
            segs[k]? = some (Event.InProgress (progressText (i + k + 1) n m.Name) ::
              call :: tail) ∧
            call.isDispatch = true ∧ ∀ e ∈ call :: tail, e.isInProgress = false := by
  induction xs with
  | nil =>
    intro i acc w a _
    exact ⟨[], rfl, by simp [DoLoop_nil], by simp⟩
  | cons m rest ih =>
    intro i acc w a h
    rw [DoLoop_cons] at h ⊢
    rcases hb : DoBody env n i m w with ⟨o, evs0, w0⟩
    obtain ⟨call, tail, h0, hd, ht⟩ := DoBody_trace env n i m w
    rw [hb] at h0
    simp only at h0
    cases o with
    | exited =>
      rw [seq_exited hb] at h
      simp at h
    | returned m1 =>
      rw [seq_returned hb] at h ⊢
      simp only [after] at h ⊢
      obtain ⟨segs, hl, hj, hk⟩ := ih _ _ _ _ h
      refine ⟨evs0 :: segs, by simp [hl], by simp [hj], ?_⟩
      intro k mk hmk
      cases k with
      | zero =>
        simp at hmk
        subst hmk
        exact ⟨call, tail, by simp [h0], hd, fun e he => (ht e he).1⟩
      | succ k =>
        simp at hmk
        obtain ⟨c, t, h1, h2, h3⟩ := hk k mk hmk
        refine ⟨c, t, ?_, h2, h3⟩
        simp only [List.getElem?_cons_succ, h1]
        congr 4
        omega

/-- C10: whenever `Do` returns, it has emitted the progress notifications
`Analyzing module (i+1/N): <Name_i>` for `i = 0, ..., N-1`, in this order and no others;
its trace is one segment per module, in input order, followed by the two ClearProgress
notifications, and the segment of module `i` starts with that module's progress
notification, directly followed by the dispatch of the module. -/
theorem C10_Do_progress_notifications (env : Env σ) (modules : List Module) (w : σ)
    (v : List Module × Option GoError) (h : (Do env modules w).1 = Outcome.returned v) :
    (Do env modules w).2.1.filter Event.isInProgress =
      modules.enum.map
        (fun p => Event.InProgress (progressText (p.1 + 1) modules.length p.2.Name)) ∧
    ∃ segs : List (List Event), segs.length = modules.length ∧
      (Do env modules w).2.1 = segs.flatten ++ [Event.ClearProgress, Event.ClearProgress] ∧
      ∀ (i : Nat) (m : Module), modules[i]? = some m →
        ∃ call tail,
          segs[i]? = some (Event.InProgress (progressText (i + 1) modules.length m.Name) ::
            call :: tail) ∧
          call.isDispatch = true ∧ ∀ e ∈ call :: tail, e.isInProgress = false := by
  rw [Do_run] at h ⊢
  have h1 := DoLoop_inProgress env modules.length modules 0 [] w
  have h2 := DoLoop_segments env modules.length modules 0 [] w
  rcases hl : DoLoop env modules.length 0 modules [] w with ⟨o, evs, w1⟩
  rw [hl] at h h1 h2
  cases o with
  | exited => simp at h
  | returned a =>
    have h1a := h1 a rfl
    obtain ⟨segs, hlen, hj, hk⟩ := h2 a rfl
    simp only at h1a hj
    refine ⟨?_, segs, hlen, by simp [hj], ?_⟩
    · simp only [List.filter_append, h1a]
      simp [List.enum, Event.isInProgress]
    · intro i m hm
      simpa using hk i m hm

theorem C10_Do_progress_notifications_witness :
    (Do demoEnv [appModule, unknownModule, vendorModule] 0).2.1.filter Event.isInProgress =
      [Event.InProgress "Analyzing module (1/3): app",
       Event.InProgress "Analyzing module (2/3): unknown",
       Event.InProgress "Analyzing module (3/3): vendored"] ∧
    (Do demoEnv [appModule, unknownModule, vendorModule] 0).2.1.filter Event.isInProgress =
      [appModule, unknownModule, vendorModule].enum.map
        (fun p => Event.InProgress
          (progressText (p.1 + 1) [appModule, unknownModule, vendorModule].length p.2.Name)) ∧
    ∃ segs : List (List Event), segs.length = [appModule, unknownModule, vendorModule].length ∧
      (Do demoEnv [appModule, unknownModule, vendorModule] 0).2.1 =
        segs.flatten ++ [Event.ClearProgress, Event.ClearProgress] ∧
      ∀ (i : Nat) (m : Module), [appModule, unknownModule, vendorModule][i]? = some m →
        ∃ call tail,
          segs[i]? = some (Event.InProgress
            (progressText (i + 1) [appModule, unknownModule, vendorModule].length m.Name) ::
            call :: tail) ∧
          call.isDispatch = true ∧ ∀ e ∈ call :: tail, e.isInProgress = false :=
  ⟨by decide,
   C10_Do_progress_notifications demoEnv [appModule, unknownModule, vendorModule] 0
    (demoAnalyzed, none) (by decide)⟩

/-! ## One module inside a run -/

theorem DoLoop_through (env : Env σ) (n : Nat) (xs : List Module) (j : Nat) (m : Module)
    (hj : xs[j]? = some m) (w : σ) (pre : List Module) (evs1 : List Event) (w1 : σ)
    (m1 : Module) (evs2 : List Event) (w2 : σ)
    (h1 : DoLoop env n 0 (xs.take j) [] w = (Outcome.returned pre, evs1, w1))
    (h2 : DoBody env n j m w1 = (Outcome.returned m1, evs2, w2)) :
    DoLoop env n 0 xs [] w =
      after (evs1 ++ evs2) (DoLoop env n (j + 1) (xs.drop (j + 1)) (pre ++ [m1]) w2) := by
  rw [DoLoop_split env n xs j m hj, seq_returned h1]
  simp only [Nat.zero_add]
  rw [seq_returned h2, after_after]

/-- If `Do` returns and the loop reaches index `j` in world `w1`, the module returned at
index `j` is the one the round for `j` returns in `w1`, and the events of that round are
part of the trace. -/
theorem Do_at_index (env : Env σ) (modules : List Module) (w : σ) (j : Nat) (m : Module)
    (hj : modules[j]? = some m) (w1 : σ) (hw : worldAt env modules w j = some w1)
    (m1 : Module) (evs2 : List Event) (w2 : σ)
    (h2 : DoBody env modules.length j m w1 = (Outcome.returned m1, evs2, w2)) :
    (∀ e ∈ evs2, e ∈ (Do env modules w).2.1) ∧
    ∀ analyzed err, (Do env modules w).1 = Outcome.returned (analyzed, err) →
      analyzed[j]? = some m1 := by
  obtain ⟨pre, evs1, h1⟩ := worldAt_eq env modules w w1 j hw
  have ht := DoLoop_through env modules.length modules j m hj w pre evs1 w1 m1 evs2 w2 h1 h2
  rcases h3 : DoLoop env modules.length (j + 1) (modules.drop (j + 1)) (pre ++ [m1]) w2 with
    ⟨o3, evs3, w3⟩
  rw [h3] at ht
  simp only [after] at ht
  have hlen : pre.length = j := by
    obtain ⟨out1, hp, hl1⟩ := DoLoop_returned env _ _ _ _ _ _ _ _ h1
    rw [hp]
    simp [hl1, (split_at modules j m hj).2]
  constructor
  · intro e he
    rw [Do_run, ht]
    cases o3 <;> simp [he]
  · intro analyzed err hret
    rw [Do_run, ht] at hret
    cases o3 with
    | exited => simp at hret
    | returned a =>
      simp at hret
      obtain ⟨out3, ha, -⟩ := DoLoop_returned env _ _ _ _ _ _ _ _ h3
      rw [← hret.1, ha, List.append_assoc, List.getElem?_append_right (by omega)]
      simp [hlen]

/-- C6: for a non-raw module reached by the loop for which `analyzers.New` succeeds and
`Analyze` succeeds with result `d`, whatever `IsBuilt` returned (`built`, `berr`): the
round calls `Analyze` after the build check and returns the module with Imports replaced
by `d.Direct` and Deps by `d.Transitive`, every other field unchanged; the build check only
adds warnings to the trace; and when `Do` returns, this module is at the same index of the
result. -/
theorem C6_Do_build_check_advisory (env : Env σ) (modules : List Module) (w : σ) (j : Nat)
    (m : Module) (w1 : σ) (an : Analyzer σ) (w2 : σ) (built : Bool) (berr : Option GoError)
    (w3 : σ) (d : Deps) (w4 : σ)
    (hj : modules[j]? = some m) (hw : worldAt env modules w j = some w1)
    (hraw : m.Type_ ≠ PkgType.Raw) (hnew : env.New m w1 = ((an, none), w2))
    (hbuilt : an.IsBuilt w2 = ((built, berr), w3))
    (hdeps : an.Analyze w3 = ((d, none), w4)) :
    DoBody env modules.length j m w1 =
      (Outcome.returned { m with Imports := d.Direct, Deps := d.Transitive },
       Event.InProgress (progressText (j + 1) modules.length m.Name) :: Event.New m none ::
         Event.IsBuilt built berr :: (builtWarnings built berr ++ [Event.Analyze d none]),
       w4) ∧
    Event.Analyze d none ∈ (Do env modules w).2.1 ∧
    ∀ analyzed err, (Do env modules w).1 = Outcome.returned (analyzed, err) →
      analyzed[j]? = some { m with Imports := d.Direct, Deps := d.Transitive } := by
  have hbody : DoBody env modules.length j m w1 =
      (Outcome.returned { m with Imports := d.Direct, Deps := d.Transitive },
       Event.InProgress (progressText (j + 1) modules.length m.Name) :: Event.New m none ::
         Event.IsBuilt built berr :: (builtWarnings built berr ++ [Event.Analyze d none]),
       w4) := by
    rw [DoBody_analyze env _ _ m w1 hraw (by rw [hnew])]
    simp [hnew, hbuilt, hdeps]
  obtain ⟨hmem, hidx⟩ := Do_at_index env modules w j m hj w1 hw _ _ _ hbody
  exact ⟨hbody, hmem _ (by simp), hidx⟩

theorem C6_Do_build_check_advisory_witness :
    DoBody demoEnv [appModule, unbuiltModule].length 1 unbuiltModule 3 =
      (Outcome.returned { unbuiltModule with
          Imports := (demoDeps unbuiltModule).Direct
          Deps := (demoDeps unbuiltModule).Transitive },
       Event.InProgress (progressText (1 + 1) [appModule, unbuiltModule].length
           unbuiltModule.Name) :: Event.New unbuiltModule none ::
         Event.IsBuilt false (some (GoError.other "cannot stat")) ::
         (builtWarnings false (some (GoError.other "cannot stat")) ++
           [Event.Analyze (demoDeps unbuiltModule) none]),
       6) ∧
    Event.Analyze (demoDeps unbuiltModule) none ∈ (Do demoEnv [appModule, unbuiltModule] 0).2.1 ∧
    ∀ analyzed err,
      (Do demoEnv [appModule, unbuiltModule] 0).1 = Outcome.returned (analyzed, err) →
      analyzed[1]? = some { unbuiltModule with
          Imports := (demoDeps unbuiltModule).Direct
          Deps := (demoDeps unbuiltModule).Transitive } :=
  C6_Do_build_check_advisory demoEnv [appModule, unbuiltModule] 0 1 unbuiltModule 3
    (demoAnalyzer unbuiltModule) 4 false (some (GoError.other "cannot stat")) 5
    (demoDeps unbuiltModule) 6 (by decide) (by decide) (by decide) (by rfl) (by rfl) (by rfl)

/-- C4: for a raw module reached by the loop whose `UploadTarball` call returns the
locator `L` (with or without an error): the round binds no analyzer and returns the module
with exactly one direct import, resolved to the identifier (raw, `L.Project`,
`L.Revision`), and a transitive graph with exactly one entry, keyed by that identifier,
whose package has that identifier and no imports; `L.Fetcher` plays no part; and when
`Do` returns, this module is at the same index of the result. -/
theorem C4_Do_raw_leaf (env : Env σ) (modules : List Module) (w : σ) (j : Nat)
    (m : Module) (w1 : σ) (L : Locator) (uerr : Option GoError) (w2 : σ)
    (hj : modules[j]? = some m) (hw : worldAt env modules w j = some w1)
    (hraw : m.Type_ = PkgType.Raw)
    (hup : env.UploadTarball m.BuildTarget w1 = ((L, uerr), w2)) :
    DoBody env modules.length j m w1 =
      (Outcome.returned { m with
          Imports :=
            [{ Target := ""
               Resolved := { Type_ := PkgType.Raw, Name := L.Project, Revision := L.Revision } }]
          Deps :=
            [({ Type_ := PkgType.Raw, Name := L.Project, Revision := L.Revision },
              { ID := { Type_ := PkgType.Raw, Name := L.Project, Revision := L.Revision }
                Imports := [] })] },
       Event.InProgress (progressText (j + 1) modules.length m.Name) ::
         Event.UploadTarball m.BuildTarget L uerr :: uploadWarnings uerr,
       w2) ∧
    (∀ e ∈ (DoBody env modules.length j m w1).2.1, e.isNew = false) ∧
    ∀ analyzed err, (Do env modules w).1 = Outcome.returned (analyzed, err) →
      analyzed[j]? = some { m with
          Imports :=
            [{ Target := ""
               Resolved := { Type_ := PkgType.Raw, Name := L.Project, Revision := L.Revision } }]
          Deps :=
            [({ Type_ := PkgType.Raw, Name := L.Project, Revision := L.Revision },
              { ID := { Type_ := PkgType.Raw, Name := L.Project, Revision := L.Revision }
                Imports := [] })] } := by
  have hbody := DoBody_raw env modules.length j m w1 hraw
  rw [hup] at hbody
  simp only [rawLeaf] at hbody
  have hbody2 : DoBody env modules.length j m w1 =
      (Outcome.returned { m with
          Imports :=
            [{ Target := ""
               Resolved := { Type_ := PkgType.Raw, Name := L.Project, Revision := L.Revision } }]
          Deps :=
            [({ Type_ := PkgType.Raw, Name := L.Project, Revision := L.Revision },
              { ID := { Type_ := PkgType.Raw, Name := L.Project, Revision := L.Revision }
                Imports := [] })] },
       Event.InProgress (progressText (j + 1) modules.length m.Name) ::
         Event.UploadTarball m.BuildTarget L uerr :: uploadWarnings uerr,
       w2) := by
    rw [hbody]
    cases uerr <;> rfl
  obtain ⟨-, hidx⟩ := Do_at_index env modules w j m hj w1 hw _ _ _ hbody2
  refine ⟨hbody2, ?_, hidx⟩
  rw [hbody2]
  intro e he
  have hcases : e = Event.InProgress (progressText (j + 1) modules.length m.Name) ∨
      e = Event.UploadTarball m.BuildTarget L uerr ∨ e ∈ uploadWarnings uerr := by
    simpa using he
  rcases hcases with h | h | h
  · subst h
    rfl
  · subst h
    rfl
  · cases uerr with
    | none => simp [uploadWarnings] at h
    | some e0 =>
      simp [uploadWarnings] at h
      subst h
      rfl

theorem C4_Do_raw_leaf_witness :
    DoBody demoEnv [vendorModule].length 0 vendorModule 0 =
      (Outcome.returned { vendorModule with
          Imports :=
            [{ Target := ""
               Resolved := { Type_ := PkgType.Raw, Name := "myproj", Revision := "abc123" } }]
          Deps :=
            [({ Type_ := PkgType.Raw, Name := "myproj", Revision := "abc123" },
              { ID := { Type_ := PkgType.Raw, Name := "myproj", Revision := "abc123" }
                Imports := [] })] },
       Event.InProgress (progressText (0 + 1) [vendorModule].length vendorModule.Name) ::
         Event.UploadTarball vendorModule.BuildTarget
           { Fetcher := "custom", Project := "myproj", Revision := "abc123" } none ::
         uploadWarnings none,
       1) ∧
    (∀ e ∈ (DoBody demoEnv [vendorModule].length 0 vendorModule 0).2.1, e.isNew = false) ∧
    ∀ analyzed err, (Do demoEnv [vendorModule] 0).1 = Outcome.returned (analyzed, err) →
      analyzed[0]? = some { vendorModule with
          Imports :=
            [{ Target := ""
               Resolved := { Type_ := PkgType.Raw, Name := "myproj", Revision := "abc123" } }]
          Deps :=
            [({ Type_ := PkgType.Raw, Name := "myproj", Revision := "abc123" },
              { ID := { Type_ := PkgType.Raw, Name := "myproj", Revision := "abc123" }
                Imports := [] })] } :=
  C4_Do_raw_leaf demoEnv [vendorModule] 0 0 vendorModule 0
    { Fetcher := "custom", Project := "myproj", Revision := "abc123" } none 1
    (by decide) (by decide) (by decide) (by decide)

/-! ## Raw-upload errors do not steer the run -/

theorem eraseUploadErrors_append (a b : List Event) :
    eraseUploadErrors (a ++ b) = eraseUploadErrors a ++ eraseUploadErrors b := by
  simp [eraseUploadErrors]

theorem eraseUploadErrors_builtWarnings (built : Bool) (berr : Option GoError) :
    eraseUploadErrors (builtWarnings built berr) = builtWarnings built berr := by
  cases built <;> cases berr <;> simp [eraseUploadErrors, builtWarnings, eraseUploadError]

theorem DoBody_uploadErrors (env : Env σ) (n i : Nat) (m : Module) (w : σ) :
    DoBody env.withUploadsSucceeding n i m w =
      ((DoBody env n i m w).1, eraseUploadErrors (DoBody env n i m w).2.1,
       (DoBody env n i m w).2.2) := by
  by_cases hraw : m.Type_ = PkgType.Raw
  · rw [DoBody_raw env n i m w hraw, DoBody_raw env.withUploadsSucceeding n i m w hraw]
    rcases hu : env.UploadTarball m.BuildTarget w with ⟨⟨L, err⟩, w1⟩
    cases err <;>
      simp [Env.withUploadsSucceeding, hu, eraseUploadErrors, eraseUploadError]
  · rcases hn : env.New m w with ⟨⟨an, err⟩, w1⟩
    cases err with
    | some e =>
      rw [DoBody_bindFail env n i m w hraw e (by rw [hn]),
        DoBody_bindFail env.withUploadsSucceeding n i m w hraw e
          (by simp [Env.withUploadsSucceeding, hn])]
      simp [Env.withUploadsSucceeding, eraseUploadErrors, eraseUploadError]
    | none =>
      rw [DoBody_analyze env n i m w hraw (by rw [hn]),
        DoBody_analyze env.withUploadsSucceeding n i m w hraw
          (by simp [Env.withUploadsSucceeding, hn])]
      simp only [Env.withUploadsSucceeding, hn]
      rcases hb : an.IsBuilt w1 with ⟨⟨built, berr⟩, w2⟩
      rcases hd : an.Analyze w2 with ⟨⟨d, derr⟩, w3⟩
      have hw := eraseUploadErrors_builtWarnings built berr
      simp only [eraseUploadErrors] at hw
      cases derr <;>
        simp [eraseUploadErrors, eraseUploadError, hw]

theorem DoLoop_uploadErrors (env : Env σ) (n : Nat) (xs : List Module) :
    ∀ (i : Nat) (acc : List Module) (w : σ),
      DoLoop env.withUploadsSucceeding n i xs acc w =
        ((DoLoop env n i xs acc w).1, eraseUploadErrors (DoLoop env n i xs acc w).2.1,
         (DoLoop env n i xs acc w).2.2) := by
  induction xs with
  | nil =>
    intro i acc w
    simp [DoLoop_nil, eraseUploadErrors]
  | cons m rest ih =>
    intro i acc w
    rw [DoLoop_cons, DoLoop_cons]
    have hb := DoBody_uploadErrors env n i m w
    rcases hb0 : DoBody env n i m w with ⟨o, evs0, w0⟩
    rw [hb0] at hb
    simp only at hb
    cases o with
    | exited => rw [seq_exited hb0, seq_exited hb]
    | returned m1 =>
      rw [seq_returned hb0, seq_returned hb, ih]
      simp [after, eraseUploadErrors_append]

/-- The run in the environment where every raw upload reports success has the same
outcome and final world, and the same trace up to what the trace says about upload
errors. -/
theorem Do_uploadErrors (env : Env σ) (modules : List Module) (w : σ) :
    Do env.withUploadsSucceeding modules w =
      ((Do env modules w).1, eraseUploadErrors (Do env modules w).2.1,
       (Do env modules w).2.2) := by
  rw [Do_run, Do_run, DoLoop_uploadErrors]
  rcases h : DoLoop env modules.length 0 modules [] w with ⟨o, evs, w1⟩
  cases o
  · simp [eraseUploadErrors, eraseUploadError]
  · simp

/-- C5: for a raw module reached by the loop whose `UploadTarball` call fails (returning
the locator `L` along with the error `e`): the round does not end the process; it logs
one warning and returns the module with the synthesized identity (raw, `L.Project`,
`L.Revision`) as its only direct import and only transitive entry, with no further edges;
when `Do` returns, this module is at the same index of the result; and the whole run has
the outcome and final world of the run in which every upload reports success, with the
same trace up to the upload errors and their warnings. -/
theorem C5_Do_raw_upload_failure (env : Env σ) (modules : List Module) (w : σ) (j : Nat)
    (m : Module) (w1 : σ) (L : Locator) (e : GoError) (w2 : σ)
    (hj : modules[j]? = some m) (hw : worldAt env modules w j = some w1)
    (hraw : m.Type_ = PkgType.Raw)
    (hup : env.UploadTarball m.BuildTarget w1 = ((L, some e), w2)) :
    DoBody env modules.length j m w1 =
      (Outcome.returned { m with
          Imports :=
            [{ Target := ""
               Resolved := { Type_ := PkgType.Raw, Name := L.Project, Revision := L.Revision } }]
          Deps :=
            [({ Type_ := PkgType.Raw, Name := L.Project, Revision := L.Revision },
              { ID := { Type_ := PkgType.Raw, Name := L.Project, Revision := L.Revision }
                Imports := [] })] },
       [Event.InProgress (progressText (j + 1) modules.length m.Name),
        Event.UploadTarball m.BuildTarget L (some e),
        Event.Warnf "Could not upload raw module: %s" (some e)],
       w2) ∧
    (∀ analyzed err, (Do env modules w).1 = Outcome.returned (analyzed, err) →
      analyzed[j]? = some { m with
          Imports :=
            [{ Target := ""
               Resolved := { Type_ := PkgType.Raw, Name := L.Project, Revision := L.Revision } }]
          Deps :=
            [({ Type_ := PkgType.Raw, Name := L.Project, Revision := L.Revision },
              { ID := { Type_ := PkgType.Raw, Name := L.Project, Revision := L.Revision }
                Imports := [] })] }) ∧
    (Do env.withUploadsSucceeding modules w).1 = (Do env modules w).1 ∧
    (Do env.withUploadsSucceeding modules w).2.2 = (Do env modules w).2.2 ∧
    (Do env.withUploadsSucceeding modules w).2.1 = eraseUploadErrors (Do env modules w).2.1 := by
  have hbody := DoBody_raw env modules.length j m w1 hraw
  rw [hup] at hbody
  simp only [rawLeaf] at hbody
  obtain ⟨-, hidx⟩ := Do_at_index env modules w j m hj w1 hw _ _ _ hbody
  rw [Do_uploadErrors]
  exact ⟨hbody, hidx, rfl, rfl, rfl⟩

theorem C5_Do_raw_upload_failure_witness :
    DoBody demoEnv [missingModule, appModule].length 0 missingModule 0 =
      (Outcome.returned { missingModule with
          Imports :=
            [{ Target := ""
               Resolved := { Type_ := PkgType.Raw, Name := "", Revision := "" } }]
          Deps :=
            [({ Type_ := PkgType.Raw, Name := "", Revision := "" },
              { ID := { Type_ := PkgType.Raw, Name := "", Revision := "" }
                Imports := [] })] },
       [Event.InProgress (progressText (0 + 1) [missingModule, appModule].length
          missingModule.Name),
        Event.UploadTarball missingModule.BuildTarget
          { Fetcher := "", Project := "", Revision := "" }
          (some (GoError.other "upload failed")),
        Event.Warnf "Could not upload raw module: %s" (some (GoError.other "upload failed"))],
       1) ∧
    (∀ analyzed err,
      (Do demoEnv [missingModule, appModule] 0).1 = Outcome.returned (analyzed, err) →
      analyzed[0]? = some { missingModule with
          Imports :=
            [{ Target := ""
               Resolved := { Type_ := PkgType.Raw, Name := "", Revision := "" } }]
          Deps :=
            [({ Type_ := PkgType.Raw, Name := "", Revision := "" },
              { ID := { Type_ := PkgType.Raw, Name := "", Revision := "" }
                Imports := [] })] }) ∧
    (Do demoEnv.withUploadsSucceeding [missingModule, appModule] 0).1 =
      (Do demoEnv [missingModule, appModule] 0).1 ∧
    (Do demoEnv.withUploadsSucceeding [missingModule, appModule] 0).2.2 =
      (Do demoEnv [missingModule, appModule] 0).2.2 ∧
    (Do demoEnv.withUploadsSucceeding [missingModule, appModule] 0).2.1 =
      eraseUploadErrors (Do demoEnv [missingModule, appModule] 0).2.1 :=
  C5_Do_raw_upload_failure demoEnv [missingModule, appModule] 0 0 missingModule 0
    { Fetcher := "", Project := "", Revision := "" } (GoError.other "upload failed") 1
    (by decide) (by decide) (by decide) (by decide)

/-! ## A failing analyzer binding among analyzable modules -/

theorem worldAt_of_eq (env : Env σ) (modules : List Module) (w w1 : σ) (j : Nat)
    (pre : List Module) (evs1 : List Event)
    (h : DoLoop env modules.length 0 (modules.take j) [] w = (Outcome.returned pre, evs1, w1)) :
    worldAt env modules w j = some w1 := by
  simp [worldAt, h]

theorem DoLoop_take_succ (env : Env σ) (n : Nat) (xs : List Module) (k : Nat) (m : Module)
    (hk : xs[k]? = some m) (w : σ) (pre : List Module) (evs1 : List Event) (w1 : σ)
    (m1 : Module) (evs2 : List Event) (w2 : σ)
    (h1 : DoLoop env n 0 (xs.take k) [] w = (Outcome.returned pre, evs1, w1))
    (h2 : DoBody env n k m w1 = (Outcome.returned m1, evs2, w2)) :
    DoLoop env n 0 (xs.take (k + 1)) [] w = (Outcome.returned (pre ++ [m1]), evs1 ++ evs2, w2) := by
  have hti := take_succ_index xs k m hk
  rw [DoLoop_through env n (xs.take (k + 1)) k m hti.1 w pre evs1 w1 m1 evs2 w2
    (by rw [hti.2]; exact h1) h2]
  have hd : (xs.take (k + 1)).drop (k + 1) = [] :=
    List.drop_eq_nil_of_le (List.length_take_le _ _)
  rw [hd, DoLoop_nil]
  simp [after]

/-- C3: in a list of non-raw modules without prior analysis results, if `analyzers.New`
fails for the module at index `i` when the loop reaches it, and for every other index `j`
`analyzers.New` succeeds and `Analyze` succeeds with result `d j` when the loop reaches it,
then `Do` returns (it does not end the process), with one module per input module; the
module at index `i` has empty Imports and Deps, and the module at every other index `j`
has Imports `(d j).Direct` and Deps `(d j).Transitive`. -/
theorem C3_Do_bind_failure_isolated (env : Env σ) (modules : List Module) (w : σ) (i : Nat)
    (d : Nat → Deps) (hi : i < modules.length)
    (hmods : ∀ m ∈ modules, m.Type_ ≠ PkgType.Raw ∧ m.Imports = [] ∧ m.Deps = [])
    (hfail : ∀ m w1, modules[i]? = some m → worldAt env modules w i = some w1 →
      (env.New m w1).1.2 ≠ none)
    (hok : ∀ j m w1, j ≠ i → modules[j]? = some m → worldAt env modules w j = some w1 →
      (env.New m w1).1.2 = none ∧
      ((env.New m w1).1.1.Analyze
        ((env.New m w1).1.1.IsBuilt (env.New m w1).2).2).1 = (d j, none)) :
    ∃ analyzed, (Do env modules w).1 = Outcome.returned (analyzed, none) ∧
      analyzed.length = modules.length ∧
      (∃ mi, analyzed[i]? = some mi ∧ mi.Imports = [] ∧ mi.Deps = []) ∧
      ∀ j, j ≠ i → j < modules.length →
        ∃ mj, analyzed[j]? = some mj ∧ mj.Imports = (d j).Direct ∧
          mj.Deps = (d j).Transitive := by
  have inv : ∀ k, k ≤ modules.length →
      ∃ a evs w1, DoLoop env modules.length 0 (modules.take k) [] w =
          (Outcome.returned a, evs, w1) ∧ a.length = k ∧
        ∀ j, j < k → ∃ mj, a[j]? = some mj ∧
          (j = i → mj.Imports = [] ∧ mj.Deps = []) ∧
          (j ≠ i → mj.Imports = (d j).Direct ∧ mj.Deps = (d j).Transitive) := by
    intro k
    induction k with
    | zero =>
      intro _
      exact ⟨[], [], w, by simp [DoLoop_nil], rfl, by intro j hj; omega⟩
    | succ k ih =>
      intro hk
      obtain ⟨a, evs, w1, hl, hlen, hprev⟩ := ih (by omega)
      have hklt : k < modules.length := by omega
      have hm : modules[k]? = some modules[k] := List.getElem?_eq_getElem hklt
      have hin : modules[k] ∈ modules := List.getElem_mem hklt
      obtain ⟨hraw, himp, hdeps⟩ := hmods _ hin
      have hwk := worldAt_of_eq env modules w w1 k a evs hl
      have key : ∃ m1 evs2 w2, DoBody env modules.length k modules[k] w1 =
            (Outcome.returned m1, evs2, w2) ∧
          (k = i → m1.Imports = [] ∧ m1.Deps = []) ∧
          (k ≠ i → m1.Imports = (d k).Direct ∧ m1.Deps = (d k).Transitive) := by
        by_cases hki : k = i
        · have hf := hfail modules[k] w1 (by rw [← hki]; exact hm) (by rw [← hki]; exact hwk)
          rcases hne : (env.New modules[k] w1).1.2 with _ | e
          · exact absurd hne hf
          · refine ⟨_, _, _, DoBody_bindFail env _ k _ w1 hraw e hne, ?_, ?_⟩
            · intro _
              exact ⟨himp, hdeps⟩
            · intro h
              exact absurd hki h
        · obtain ⟨hnew, han⟩ := hok k modules[k] w1 hki hm hwk
          have hb := DoBody_analyze env modules.length k modules[k] w1 hraw hnew
          simp only [han] at hb
          refine ⟨_, _, _, hb, ?_, ?_⟩
          · intro h
            exact absurd h hki
          · intro _
            exact ⟨rfl, rfl⟩
      obtain ⟨m1, evs2, w2, hbody, h1, h2⟩ := key
      refine ⟨a ++ [m1], evs ++ evs2, w2,
        DoLoop_take_succ env _ modules k _ hm w a evs w1 m1 evs2 w2 hl hbody, by simp [hlen], ?_⟩
      intro j hj
      rcases Nat.lt_or_ge j k with hjk | hjk
      · obtain ⟨mj, hmj, hp⟩ := hprev j hjk
        exact ⟨mj, by rw [List.getElem?_append_left (by omega)]; exact hmj, hp⟩
      · have hjk2 : j = k := by omega
        subst hjk2
        refine ⟨m1, ?_, h1, h2⟩
        rw [List.getElem?_append_right (by omega)]
        simp [hlen]
  obtain ⟨a, evs, w1, hl, hlen, hall⟩ := inv modules.length (Nat.le_refl _)
  rw [List.take_length] at hl
  refine ⟨a, by rw [Do_run, hl], hlen, ?_, ?_⟩
  · obtain ⟨mi, hmi, hp, -⟩ := hall i hi
    exact ⟨mi, hmi, hp rfl⟩
  · intro j hji hj
    obtain ⟨mj, hmj, -, hp⟩ := hall j hj
    exact ⟨mj, hmj, hp hji⟩

theorem C3_Do_bind_failure_isolated_witness :
    ∃ analyzed,
      (Do demoEnv [appModule, unknownModule, unbuiltModule] 0).1 =
        Outcome.returned (analyzed, none) ∧
      analyzed.length = [appModule, unknownModule, unbuiltModule].length ∧
      (∃ mi, analyzed[1]? = some mi ∧ mi.Imports = [] ∧ mi.Deps = []) ∧
      ∀ j, j ≠ 1 → j < [appModule, unknownModule, unbuiltModule].length →
        ∃ mj, analyzed[j]? = some mj ∧ mj.Imports = (demoResults j).Direct ∧
          mj.Deps = (demoResults j).Transitive :=
  C3_Do_bind_failure_isolated demoEnv [appModule, unknownModule, unbuiltModule] 0 1 demoResults
    (by decide) (by decide)
    (by
      intro m w1 hm hw
      have h1 : m = unknownModule := by simpa using hm.symm
      subst h1
      simp [demoEnv, unknownModule])
    (by
      intro j m w1 hj hm hw
      have hlt : j < 3 := by
        rcases Nat.lt_or_ge j 3 with h | h
        · exact h
        · rw [List.getElem?_eq_none (by simpa using h)] at hm
          simp at hm
      have hcases : j = 0 ∨ j = 2 := by omega
      rcases hcases with h | h
      · subst h
        have h1 : m = appModule := by simpa using hm.symm
        subst h1
        simp [demoEnv, appModule, demoAnalyzer, demoResults]
      · subst h
        have h1 : m = unbuiltModule := by simpa using hm.symm
        subst h1
        simp [demoEnv, unbuiltModule, demoAnalyzer, demoResults])

/-! ## The command entry point -/

theorem noKey_pure {α : Type} (v : α) : NoSetAPIKey (pure v : Proc σ α) := by
  refine ⟨fun w e he => ?_⟩
  simp [pure, Proc.ret] at he

theorem noKey_bind {α β : Type} (x : Proc σ α) (f : α → Proc σ β)
    (hx : NoSetAPIKey x) (hf : ∀ v, NoSetAPIKey (f v)) : NoSetAPIKey (x >>= f) := by
  refine ⟨fun w e he => ?_⟩
  rw [bind_eq] at he
  rcases h : x w with ⟨o, evs, w1⟩
  have hx1 := hx.no_call w
  rw [h] at hx1
  cases o with
  | exited =>
    rw [seq_exited h] at he
    exact hx1 e he
  | returned v =>
    rw [seq_returned h] at he
    simp only [after, List.mem_append] at he
    rcases he with he | he
    · exact hx1 e he
    · exact (hf v).no_call w1 e he

theorem noKey_emit (e0 : Event) (h : e0.isSetAPIKey = false) :
    NoSetAPIKey (emit e0 : Proc σ Unit) := by
  refine ⟨fun w e he => ?_⟩
  simp [emit] at he
  subst he
  exact h

theorem noKey_Fatalf {α : Type} (format : String) (err : Option GoError) :
    NoSetAPIKey (log.Fatalf format err : Proc σ α) := by
  refine ⟨fun w e he => ?_⟩
  simp [log.Fatalf, Proc.seq, emit, os.Exit] at he
  subst he
  rfl

theorem noKey_readWorld {α : Type} (f : σ → α) : NoSetAPIKey (readWorld f) := by
  refine ⟨fun w e he => ?_⟩
  simp [readWorld] at he

theorem noKey_Do (env : Env σ) (modules : List Module) : NoSetAPIKey (Do env modules) := by
  refine ⟨fun w e he => ?_⟩
  rw [Do_run] at he
  have hev := DoLoop_loopEvents env modules.length modules 0 [] w
  rcases hl : DoLoop env modules.length 0 modules [] w with ⟨o, evs, w1⟩
  rw [hl] at he hev
  have hloop : ∀ e ∈ evs, e.isSetAPIKey = false := by
    intro e he
    have := hev e he
    cases e <;> simp [Event.isLoopEvent] at this <;> rfl
  cases o with
  | exited => exact hloop e he
  | returned a =>
    simp at he
    rcases he with he | he
    · exact hloop e he
    · subst he
      rfl

theorem noKey_collaborators (env : Env σ) :
    (∀ ctx, NoSetAPIKey (setup.SetContext env ctx)) ∧
    NoSetAPIKey (config.Modules env) ∧
    (∀ analyzed, NoSetAPIKey (fossa.Normalize env analyzed)) ∧
    (∀ t n, NoSetAPIKey (display.TemplateFile env t n)) ∧
    (∀ n, NoSetAPIKey (display.JSON env n)) ∧
    (∀ t l o n, NoSetAPIKey (fossa.Upload env t l o n)) := by
  refine ⟨?_, ?_, ?_, ?_, ?_, ?_⟩
  · refine fun ctx => ⟨fun w e he => ?_⟩
    simp [setup.SetContext] at he
    subst he
    rfl
  · refine ⟨fun w e he => ?_⟩
    simp [config.Modules] at he
    subst he
    rfl
  · refine fun a => ⟨fun w e he => ?_⟩
    simp [fossa.Normalize] at he
    subst he
    rfl
  · refine fun t n => ⟨fun w e he => ?_⟩
    simp [display.TemplateFile] at he
    subst he
    rfl
  · refine fun n => ⟨fun w e he => ?_⟩
    simp [display.JSON] at he
    subst he
    rfl
  · refine fun t l o n => ⟨fun w e he => ?_⟩
    simp [fossa.Upload] at he
    subst he
    rfl

theorem noKey_uploadAnalysis (env : Env σ) (normalized : List SourceUnit) :
    NoSetAPIKey (uploadAnalysis env normalized) := by
  unfold uploadAnalysis
  repeat' first
    | exact noKey_pure _
    | exact noKey_readWorld _
    | exact noKey_Fatalf _ _
    | exact noKey_emit _ rfl
    | exact noKey_emit (Event.InProgress _) rfl
    | exact noKey_emit Event.ClearProgress rfl
    | exact noKey_emit (Event.Println _) rfl
    | exact noKey_emit (Event.Debugf _ _) rfl
    | exact (noKey_collaborators env).2.2.2.2.2 _ _ _ _
    | refine noKey_bind _ _ ?_ (fun _ => ?_)
    | split

theorem Run_showOutput_noKey (env : Env σ) (ctx : Context)
    (hflag : ctx.GetBool ShowOutput = true) : NoSetAPIKey (Run env ctx) := by
  unfold Run
  simp only [hflag, Bool.not_true, Bool.false_eq_true, if_false, if_true]
  repeat' first
    | exact noKey_pure _
    | exact noKey_readWorld _
    | exact noKey_Fatalf _ _
    | exact noKey_emit _ rfl
    | exact noKey_emit (Event.InProgress _) rfl
    | exact noKey_emit Event.ClearProgress rfl
    | exact noKey_emit (Event.Println _) rfl
    | exact noKey_emit (Event.Debugf _ _) rfl
    | exact noKey_Do _ _
    | exact noKey_uploadAnalysis _ _
    | exact (noKey_collaborators env).1 _
    | exact (noKey_collaborators env).2.1
    | exact (noKey_collaborators env).2.2.1 _
    | exact (noKey_collaborators env).2.2.2.1 _ _
    | exact (noKey_collaborators env).2.2.2.2.1 _
    | refine noKey_bind _ _ ?_ (fun _ => ?_)
    | split

theorem troubleshooting_nonempty (env : Env σ) :
    (missingAPIKeyError env).Troubleshooting ≠ "" := by
  intro h
  have hl := congrArg String.length h
  simp only [missingAPIKeyError, String.length_append] at hl
  have h1 : ("\n" : String).length = 1 := by decide
  have h0 : ("" : String).length = 0 := by decide
  omega

/-- C9: without the show-output flag, once setup has succeeded and `fossa.SetAPIKey`
returns `ErrMissingAPIKey`, `Run` returns the user-input error `E_MISSING_API_KEY`, which
carries troubleshooting text, and the run consists of the setup call and the
`SetAPIKey` call alone: `config.Modules`, `Do`, `Normalize` and `Upload` are not called.
With the show-output flag, no run ever calls `fossa.SetAPIKey`. -/
theorem C9_Run_missing_api_key (env : Env σ) (ctx : Context) (w : σ) :
    (∀ w1 w2, ctx.GetBool ShowOutput = false → env.SetContext ctx w = (none, w1) →
      env.SetAPIKey (env.APIKey w1) w1 = (some GoError.ErrMissingAPIKey, w2) →
      Run env ctx w =
        (Outcome.returned (some (GoError.errorsError (missingAPIKeyError env))),
         [Event.SetContext none,
          Event.SetAPIKey (env.APIKey w1) (some GoError.ErrMissingAPIKey)],
         w2) ∧
      (missingAPIKeyError env).Code = "E_MISSING_API_KEY" ∧
      (missingAPIKeyError env).UserInput = true ∧
      (missingAPIKeyError env).Troubleshooting ≠ "") ∧
    (ctx.GetBool ShowOutput = true → ∀ e ∈ (Run env ctx w).2.1, e.isSetAPIKey = false) := by
  constructor
  · intro w1 w2 hflag hctx hkey
    refine ⟨?_, rfl, rfl, troubleshooting_nonempty env⟩
    simp [Run, hflag, bind_eq, Proc.seq, setup.SetContext, hctx, readWorld, fossa.SetAPIKey,
      hkey, pure, Proc.ret]
  · intro hflag
    exact (Run_showOutput_noKey env ctx hflag).no_call w

theorem C9_Run_missing_api_key_witness :
    (Run demoEnv uploadCtx 0 =
        (Outcome.returned (some (GoError.errorsError (missingAPIKeyError demoEnv))),
         [Event.SetContext none,
          Event.SetAPIKey (demoEnv.APIKey 1) (some GoError.ErrMissingAPIKey)],
         2) ∧
      (missingAPIKeyError demoEnv).Code = "E_MISSING_API_KEY" ∧
      (missingAPIKeyError demoEnv).UserInput = true ∧
      (missingAPIKeyError demoEnv).Troubleshooting ≠ "") ∧
    ∀ e ∈ (Run demoEnv outputCtx 0).2.1, e.isSetAPIKey = false :=
  ⟨(C9_Run_missing_api_key demoEnv uploadCtx 0).1 1 2 (by decide) (by decide) (by decide),
   (C9_Run_missing_api_key demoEnv outputCtx 0).2 (by decide)⟩

/-- C8: what the code does on the publish path.  Without the show-output flag, once setup
has succeeded and `fossa.SetAPIKey` has accepted the key, `Run` returns nil at once (the
`default` case of the `switch` returns `err`, which is nil): the run consists of the
setup call and the `SetAPIKey` call alone, so nothing is analyzed, normalized or
uploaded and no report reference is printed. -/
theorem C8_Run_returns_before_analysis (env : Env σ) (ctx : Context) (w w1 w2 : σ)
    (hflag : ctx.GetBool ShowOutput = false) (hctx : env.SetContext ctx w = (none, w1))
    (hkey : env.SetAPIKey (env.APIKey w1) w1 = (none, w2)) :
    Run env ctx w =
      (Outcome.returned none, [Event.SetContext none, Event.SetAPIKey (env.APIKey w1) none],
       w2) := by
  simp [Run, hflag, bind_eq, Proc.seq, setup.SetContext, hctx, readWorld, fossa.SetAPIKey,
    hkey, pure, Proc.ret]

theorem C8_Run_returns_before_analysis_witness :
    Run keyedEnv uploadCtx 0 =
      (Outcome.returned none, [Event.SetContext none, Event.SetAPIKey "key" none], 2) ∧
    (keyedEnv.Modules 2).1 =
      ([{ Name := "app", Type_ := PkgType.Ecosystem 1, BuildTarget := "." }], none) :=
  ⟨C8_Run_returns_before_analysis keyedEnv uploadCtx 0 1 2 (by decide) (by decide) (by decide),
   by decide⟩

/-- With the show-output flag the same command line analyzes, normalizes and prints: the
run of `fossa analyze --output` in the example environment. -/
theorem Run_output_example :
    Run demoEnv outputCtx 0 =
      (Outcome.returned none,
       [Event.SetContext none,
        Event.Modules [appModule] none,
        Event.InProgress "Analyzing module (1/1): app",
        Event.New appModule none,
        Event.IsBuilt true none,
        Event.Analyze (demoDeps appModule) none,
        Event.ClearProgress,
        Event.ClearProgress,
        Event.Debugf "analyzed: %#v"
          [{ appModule with
             Imports := (demoDeps appModule).Direct
             Deps := (demoDeps appModule).Transitive }],
        Event.Normalize
          [{ appModule with
             Imports := (demoDeps appModule).Direct
             Deps := (demoDeps appModule).Transitive }] [] none,
        Event.JSON "[]" none],
       7) := by
  decide

end Fossa
